import Mathlib

/-!
Verification of the Scaffold host-side communication core (`scaffold/bus.py`
and the interconnect router of `scaffold/__init__.py`).

The Python classes are shallowly embedded as executable Lean definitions:
* wire datagrams are `List Nat` with each element a byte value,
* the `ScaffoldBus` object becomes an explicit state record threaded through
  the public methods, each of which returns `Except PyErr _` (a raised Python
  exception becomes an `Except.error`),
* the serial transport is modelled by a queue `rx` of bytes the device will
  answer and a log `tx` of the datagrams written to the wire,
* Python `while` loops become fuel-structural recursions; the fuel is
  initialised to the quantity the loop consumes, so the definitions stay
  kernel-reducible and concrete runs can be checked by `decide`.
-/

deriving instance DecidableEq for Except

namespace Scaffold

/-- Byte values on the wire; always kept in `[0, 255]` by construction. -/
abbrev Byte := Nat

/-- Python exceptions raised (or, for `blocked`, a transport read that can
never return because the modelled device sends no further bytes). -/
inductive PyErr where
  | valueError (msg : String)
  | runtimeError (msg : String)
  | typeError
  | indexError
  | assertionError
  | overflowError
  | timeoutErr (data : List Byte) (size : Nat) (expected : Nat)
  | blocked
deriving DecidableEq

/-- Polling parameters of `ReadWriteOperation.set_polling`. -/
structure Poll where
  addr : Nat
  mask : Nat
  value : Nat
deriving DecidableEq

/-- Range checks performed by `ReadWriteOperation.set_polling`. -/
def pollChecks : Option Poll → Except PyErr Unit
  | none => .ok ()
  | some p =>
    if p.addr < 0x10000 then
      if p.mask < 0x100 then
        if p.value < 0x100 then .ok ()
        else .error (.valueError "Invalid polling value")
      else .error (.valueError "Invalid polling mask")
    else .error (.valueError "Invalid polling address")

/-- The operation kinds of `bus.py` (`ReadOperation`, `WriteOperation`,
`TimeoutOperation`, `DelayOperation`, `BufferWaitOperation`) together with
the data each object stores. -/
inductive Op where
  | readOp (addr : Nat) (size : Nat) (poll : Option Poll)
  | writeOp (addr : Nat) (data : List Byte) (poll : Option Poll)
  | timeoutCfg (value : Nat)
  | delayOp (cycles : Nat)
  | bufferWait (size : Nat)
deriving DecidableEq

/-- Big-endian serialization, mirroring Python `int.to_bytes(n, "big")`. -/
def toBytesBE : Nat → Nat → List Byte
  | 0, _ => []
  | n + 1, v => toBytesBE n (v / 256) ++ [v % 256]

/-- Lexicographic strict comparison of character lists by code point,
mirroring Python string `<`. -/
def strLtAux : List Char → List Char → Bool
  | [], [] => false
  | [], _ :: _ => true
  | _ :: _, [] => false
  | a :: as, b :: bs =>
    if a.toNat < b.toNat then true
    else if b.toNat < a.toNat then false
    else strLtAux as bs

/-- Python `a >= b` on strings. -/
def pyStrGe (a b : String) : Bool := !(strLtAux a.data b.data)

/-- Python `c in mode` for a single character, by code point. -/
def charIn : List Char → Char → Bool
  | [], _ => false
  | c :: rest, x => if c.toNat = x.toNat then true else charIn rest x

/-- Membership of a character in a string (Python `"w" in mode`). -/
def pyContainsChar (s : String) (c : Char) : Bool := charIn s.data c

/-- The `supported` predicate of each operation class: read, write and
timeout configuration are always supported, delay and buffer-wait require
hardware version `>= "0.9"`. -/
def Op.supported (op : Op) (version : String) : Bool :=
  match op with
  | .delayOp _ => pyStrGe version "0.9"
  | .bufferWait _ => pyStrGe version "0.9"
  | _ => true

/-- The shared `ReadWriteOperation.datagram_head`: command byte (with the
multi-byte-size and polling flag bits), big-endian address, optional polling
fields, optional size byte. -/
def datagram_head (rw : Nat) (addr : Nat) (size : Nat) (poll : Option Poll) :
    List Byte :=
  let command := rw + (if 1 < size then 2 else 0) + (if poll.isSome then 4 else 0)
  [command, addr / 256, addr % 256] ++
    (match poll with
     | some p => [p.addr / 256, p.addr % 256, p.mask, p.value]
     | none => []) ++
    (if 1 < size then [size] else [])

/-- The `datagram` method of each operation class. -/
def Op.datagram : Op → List Byte
  | .readOp addr size poll => datagram_head 0 addr size poll
  | .writeOp addr data poll => datagram_head 1 addr data.length poll ++ data
  | .timeoutCfg v => 0x08 :: toBytesBE 4 v
  | .delayOp c => 0x09 :: toBytesBE 3 c
  | .bufferWait s => 0x0a :: toBytesBE 2 s

/-- The `response_size` method of each operation class. -/
def Op.response_size : Op → Nat
  | .readOp _ size _ => 1 + size
  | .writeOp _ _ _ => 1
  | .timeoutCfg _ => 0
  | .delayOp _ => 1
  | .bufferWait _ => 1

/-- Execution status of an operation (`OperationStatus` in `bus.py`). -/
inductive OperationStatus where
  | pending
  | sent
  | completed
  | timeout
deriving DecidableEq

/-- The `resolve` method of each operation class, applied to the response
bytes read from the transport.  Returns the new status together with the
stored read result (empty for non-read operations); a failed Python
`assert` becomes `assertionError`. -/
def Op.resolve : Op → List Byte → Except PyErr (OperationStatus × List Byte)
  | .readOp _ size _, data =>
    match data.getLast? with
    | none => .error .indexError
    | some size_completed =>
      let result := data.take size_completed
      if size_completed = size then .ok (.completed, result)
      else if size_completed < size then .ok (.timeout, result)
      else .error .assertionError
  | .writeOp _ wdata _, data =>
    match data.head? with
    | none => .error .indexError
    | some size_completed =>
      if size_completed = wdata.length then .ok (.completed, [])
      else if size_completed < wdata.length then .ok (.timeout, [])
      else .error .assertionError
  | .timeoutCfg _, _ => .ok (.completed, [])
  | .delayOp _, data =>
    match data.head? with
    | none => .error .indexError
    | some b => if b = 0 then .ok (.completed, []) else .error .assertionError
  | .bufferWait _, data =>
    match data.head? with
    | none => .error .indexError
    | some b => if b = 0 then .ok (.completed, []) else .error .assertionError

/-- The `ReadOperation.result` property once `wait()` has returned: the
stored bytes on completion, a `TimeoutError` carrying the partial data, its
size and the expected size on timeout (the constructor of `TimeoutError`
sets `size = len(data)` when data is given). -/
def readResultAfterWait (size : Nat) (status : OperationStatus)
    (stored : List Byte) : Except PyErr (List Byte) :=
  match status with
  | .completed => .ok stored
  | .timeout => .error (.timeoutErr stored stored.length size)
  | _ => .error (.runtimeError "Invalid operation status")

example : Op.datagram (.writeOp 3 [9] none) = [1, 0, 3, 9] := by decide
example : Op.datagram (.readOp 0x0204 2 none) = [2, 2, 4, 2] := by decide
example : Op.datagram (.bufferWait 30) = [10, 0, 30] := by decide
example : Op.datagram (.timeoutCfg 5) = [8, 0, 0, 0, 5] := by decide
example :
    Op.resolve (.readOp 0 2 none) [7, 8, 2] = .ok (.completed, [7, 8]) := by
  decide
example :
    Op.resolve (.readOp 0 2 none) [7, 0, 1] = .ok (.timeout, [7]) := by decide
example : Op.supported (.delayOp 5) "0.7" = false := by decide
example : Op.supported (.delayOp 5) "0.9" = true := by decide

/-- Values the `ScaffoldBus.timeout` property can take: `None`, a number of
seconds, or — when the cache was never set — a `RuntimeError` *instance*
returned (not raised) by the getter. -/
inductive TimeoutVal where
  | errInstance (msg : String)
  | noneVal
  | val (q : ℚ)
deriving DecidableEq

/-- State of a `ScaffoldBus` object, together with the modelled transport:
`rx` holds the bytes the device will send next, `tx` logs every datagram
written to the wire, and `log` records each resolved operation with its
final status and stored read result. -/
structure ScaffoldBus where
  connected : Bool
  version : Option String
  rx : List Byte
  tx : List (List Byte)
  timeout_unit : ℚ
  cache_timeout : Option Nat
  timeout_stack : List TimeoutVal
  operations : List Op
  buffer_wait_operations : List Op
  buffer_wait_stack : Nat
  fifo_size : Int
  log : List (Op × OperationStatus × List Byte)
deriving DecidableEq

/-- `ScaffoldBus.FIFO_SIZE`. -/
def FIFO_SIZE : Nat := 512

/-- `ScaffoldBus.MAX_CHUNK`. -/
def MAX_CHUNK : Nat := 255

/-- Blocking `serial.read(n)`: returns the first `n` queued device bytes, or
blocks forever (`none`) if the modelled device never sends enough. -/
def serRead (rx : List Byte) (n : Nat) : Option (List Byte × List Byte) :=
  if n ≤ rx.length then some (rx.take n, rx.drop n) else none

/-- `ScaffoldBus.resolve_next_operation`: reads the response of the oldest
sent operation, resolves it, removes it from the queue and deducts its
datagram length from the FIFO shadow counter; when the queue empties the
Python `assert self.__fifo_size == 0` is checked. -/
def resolve_next_operation (s : ScaffoldBus) :
    Except PyErr ((Op × OperationStatus × List Byte) × ScaffoldBus) :=
  match s.operations with
  | [] => .error .indexError
  | op :: rest =>
    match serRead s.rx op.response_size with
    | none => .error .blocked
    | some (data, rx2) =>
      match op.resolve data with
      | .error e => .error e
      | .ok (st, res) =>
        let fifo2 := s.fifo_size - op.datagram.length
        if rest = [] ∧ fifo2 ≠ 0 then .error .assertionError
        else
          .ok ((op, st, res),
            { s with rx := rx2, operations := rest, fifo_size := fifo2,
                     log := s.log ++ [(op, st, res)] })

/-- Loop body of `ScaffoldBus.__require_fifo_space`: resolve the oldest
operations until `FIFO_SIZE - fifo_size >= size`.  The fuel is initialised
to the number of unresolved operations; when it runs out with the condition
still unmet the operation queue is empty and the next Python iteration
would fail with `IndexError` on `self.__operations[0]`. -/
def require_fifo_space_loop : Nat → Nat → ScaffoldBus → Except PyErr ScaffoldBus
  | 0, size, s =>
    if (FIFO_SIZE : Int) - s.fifo_size < size then .error .indexError else .ok s
  | fuel + 1, size, s =>
    if (FIFO_SIZE : Int) - s.fifo_size < size then
      match resolve_next_operation s with
      | .error e => .error e
      | .ok (_, s2) => require_fifo_space_loop fuel size s2
    else .ok s

/-- `ScaffoldBus.__require_fifo_space`. -/
def require_fifo_space (size : Nat) (s : ScaffoldBus) : Except PyErr ScaffoldBus :=
  require_fifo_space_loop s.operations.length size s

/-- `ScaffoldBus.operation`: version/connection checks, then either send the
datagram immediately (waiting for FIFO headroom first) or, inside a
buffer-wait section, push the operation on the deferred list. -/
def operation (s : ScaffoldBus) (op : Op) : Except PyErr ScaffoldBus :=
  if s.connected = false then .error (.runtimeError "Not connected to board")
  else
    match s.version with
    | none => .error .assertionError
    | some v =>
      if op.supported v = false then
        .error (.runtimeError "Operation not supported by current hardware version")
      else if s.buffer_wait_stack = 0 then
        if op.datagram.length < FIFO_SIZE then
          match require_fifo_space op.datagram.length s with
          | .error e => .error e
          | .ok s2 =>
            .ok { s2 with tx := s2.tx ++ [op.datagram],
                          operations := s2.operations ++ [op],
                          fifo_size := s2.fifo_size + op.datagram.length }
        else .error .assertionError
      else
        .ok { s with buffer_wait_operations := s.buffer_wait_operations ++ [op] }

/-- `Operation.wait` for an operation that sits last in the queue: resolve
oldest operations until the queue is empty, returning the last resolution
(which is the awaited operation's).  The fuel is initialised to the queue
length, which is exactly the number of iterations the Python `while`
performs. -/
def waitAll : Nat → ScaffoldBus →
    Except PyErr ((Op × OperationStatus × List Byte) × ScaffoldBus)
  | 0, _ => .error (.runtimeError "Invalid operation status")
  | fuel + 1, s =>
    match resolve_next_operation s with
    | .error e => .error e
    | .ok (r, s2) =>
      if s2.operations = [] then .ok (r, s2) else waitAll fuel s2

/-- Chunking loop of `ScaffoldBus.write`: per chunk of at most `MAX_CHUNK`
bytes, run the `WriteOperation` constructor checks, `set_polling` checks and
submit via `operation`.  Fuel is initialised to the data length; at least one
byte is consumed per iteration, so the fuel-exhausted branch with data left
is unreachable from the entry point. -/
def bus_write_loop (addr : Nat) (poll : Option Poll) :
    Nat → ScaffoldBus → List Byte → Except PyErr ScaffoldBus
  | _, s, [] => .ok s
  | 0, _, _ :: _ => .error .indexError
  | fuel + 1, s, b :: rest =>
    if addr < 0x10000 then
      if (List.take MAX_CHUNK (b :: rest)).length = 0 then
        .error (.valueError "No data")
      else if 255 < (List.take MAX_CHUNK (b :: rest)).length then
        .error (.valueError "Data too long")
      else
        match pollChecks poll with
        | .error e => .error e
        | .ok _ =>
          match operation s (.writeOp addr (List.take MAX_CHUNK (b :: rest)) poll) with
          | .error e => .error e
          | .ok s2 => bus_write_loop addr poll fuel s2 (List.drop MAX_CHUNK (b :: rest))
    else .error (.valueError "Invalid address")

/-- `ScaffoldBus.write` with `data` already in bytes form. -/
def bus_write (s : ScaffoldBus) (addr : Nat) (data : List Byte)
    (poll : Option Poll) : Except PyErr ScaffoldBus :=
  bus_write_loop addr poll data.length s data

/-- `ScaffoldBus.write` called with an `int`: Python converts it through
`bytes([data])`, which requires a value in `[0, 255]`. -/
def bus_write_int (s : ScaffoldBus) (addr : Nat) (v : Nat)
    (poll : Option Poll) : Except PyErr ScaffoldBus :=
  if v < 256 then bus_write s addr [v] poll
  else .error (.valueError "bytes must be in range(0, 256)")

/-- Chunking loop of `ScaffoldBus.read`: per chunk, constructor and polling
checks, submit the `ReadOperation`, then immediately access `op.result`,
which waits for the operation (raising `RuntimeError` if the operation was
only buffered by an open buffer-wait section and is thus still pending) and
appends the received bytes.  Fuel is initialised to the requested size; each
iteration consumes at least one byte of it. -/
def bus_read_loop (addr : Nat) (poll : Option Poll) :
    Nat → ScaffoldBus → Nat → List Byte → Except PyErr (List Byte × ScaffoldBus)
  | _, s, 0, acc => .ok (acc, s)
  | 0, _, _ + 1, _ => .error .indexError
  | fuel + 1, s, r + 1, acc =>
    if addr < 0x10000 then
      match pollChecks poll with
      | .error e => .error e
      | .ok _ =>
        match operation s (.readOp addr (min MAX_CHUNK (r + 1)) poll) with
        | .error e => .error e
        | .ok s2 =>
          if s.buffer_wait_stack = 0 then
            match waitAll s2.operations.length s2 with
            | .error e => .error e
            | .ok ((_, st, res), s3) =>
              match readResultAfterWait (min MAX_CHUNK (r + 1)) st res with
              | .error e => .error e
              | .ok got =>
                bus_read_loop addr poll fuel s3 (r + 1 - min MAX_CHUNK (r + 1))
                  (acc ++ got)
          else .error (.runtimeError "Cannot wait a pending operation")
    else .error (.valueError "Invalid address")

/-- `ScaffoldBus.read`. -/
def bus_read (s : ScaffoldBus) (addr : Nat) (size : Nat)
    (poll : Option Poll) : Except PyErr (List Byte × ScaffoldBus) :=
  bus_read_loop addr poll size s size []

/-- `ScaffoldBus.push_buffer_wait`. -/
def push_buffer_wait (s : ScaffoldBus) : ScaffoldBus :=
  { s with buffer_wait_stack := s.buffer_wait_stack + 1 }

/-- Total enqueued FIFO footprint (datagram lengths) of a list of
operations; the `fifo_size` accumulation loop of `pop_buffer_wait`. -/
def sumDatagrams (l : List Op) : Nat :=
  (l.map (fun op => op.datagram.length)).sum

/-- Submission loop at the end of `pop_buffer_wait`: send each deferred
operation through `operation`, in order. -/
def submitAll : ScaffoldBus → List Op → Except PyErr ScaffoldBus
  | s, [] => .ok s
  | s, op :: rest =>
    match operation s op with
    | .error e => .error e
    | .ok s2 => submitAll s2 rest

/-- `ScaffoldBus.pop_buffer_wait`: underflow check, decrement; on the
outermost exit compute the deferred footprint, check it fits the FIFO with
the 3-byte buffer-wait header, wait for headroom, submit one
`BufferWaitOperation` (whose constructor checks `size in range(512)`)
followed by the deferred operations, then clear the deferred list. -/
def pop_buffer_wait (s : ScaffoldBus) : Except PyErr ScaffoldBus :=
  if s.buffer_wait_stack = 0 then
    .error (.runtimeError "No buffer wait section has been started")
  else
    if s.buffer_wait_stack - 1 = 0 then
      if FIFO_SIZE < sumDatagrams s.buffer_wait_operations + 3 then
        .error (.runtimeError "Buffer wait section is too large")
      else
        match require_fifo_space (sumDatagrams s.buffer_wait_operations + 3)
            { s with buffer_wait_stack := s.buffer_wait_stack - 1 } with
        | .error e => .error e
        | .ok s2 =>
          if sumDatagrams s.buffer_wait_operations < 512 then
            match operation s2 (.bufferWait (sumDatagrams s.buffer_wait_operations)) with
            | .error e => .error e
            | .ok s3 =>
              match submitAll s3 s.buffer_wait_operations with
              | .error e => .error e
              | .ok s4 => .ok { s4 with buffer_wait_operations := [] }
          else .error (.valueError "Buffer size out of range")
    else .ok { s with buffer_wait_stack := s.buffer_wait_stack - 1 }

/-- Python `int()` truncation toward zero, on exact rationals. -/
def pyInt (q : ℚ) : Int := if q < 0 then -Int.floor (-q) else Int.floor q

/-- The `ScaffoldBus.timeout` property getter.  When the cached value was
never set it *returns* a `RuntimeError` instance instead of raising one.
The source computes `cache * timeout_unit` with IEEE-754 doubles; this
state-level model idealizes the arithmetic as exact rationals, and the
binary64 rounding itself is modelled separately below (`F64`,
`timeout_getter64`) where a claim depends on it. -/
def timeout_getter (s : ScaffoldBus) : Except PyErr TimeoutVal :=
  match s.cache_timeout with
  | none => .ok (.errInstance "Timeout not set yet")
  | some n =>
    if n = 0 then .ok .noneVal
    else .ok (.val ((n : ℚ) * s.timeout_unit))

/-- Tail of the `ScaffoldBus.timeout` setter once the raw unit count `n` is
known: skip if unchanged, otherwise send a `TimeoutOperation` (whose
constructor checks `value in range(0x100000000)`) and update the cache. -/
def timeout_set_n (s : ScaffoldBus) (n : Nat) : Except PyErr ScaffoldBus :=
  if some n = s.cache_timeout then .ok s
  else
    if n < 0x100000000 then
      match operation s (.timeoutCfg n) with
      | .error e => .error e
      | .ok s2 => .ok { s2 with cache_timeout := some n }
    else .error (.valueError "Timeout value out of range")

/-- The `ScaffoldBus.timeout` property setter: `None` disables the timeout
(`n = 0`), a number is divided by the timeout unit and truncated with a
minimum of one unit; assigning a non-number (the getter's `RuntimeError`
instance) fails the division with a `TypeError`.  The source performs the
division on IEEE-754 doubles; here it is idealized as exact, and the
binary64 version is `timeout_setter64` below. -/
def timeout_setter (s : ScaffoldBus) (value : TimeoutVal) :
    Except PyErr ScaffoldBus :=
  match value with
  | .errInstance _ => .error .typeError
  | .noneVal => timeout_set_n s 0
  | .val q => timeout_set_n s (max 1 (pyInt (q / s.timeout_unit))).toNat

/-- The value pushed through the setter by `push_timeout`: `None` keeps the
current timeout, a number is clamped by `min` against the current timeout
(`min(RuntimeError, q)` would fail with a `TypeError` in Python when the
timeout was never configured). -/
def pushNewValue (current : TimeoutVal) (value : Option ℚ) :
    Except PyErr TimeoutVal :=
  match value with
  | none => .ok current
  | some q =>
    match current with
    | .noneVal => .ok (.val q)
    | .val t => .ok (.val (min t q))
    | .errInstance _ => .error .typeError

/-- `ScaffoldBus.push_timeout`: clamp the requested value by the current
timeout (`min`), push the current property value on the stack, then assign
the clamped value through the setter. -/
def push_timeout (s : ScaffoldBus) (value : Option ℚ) :
    Except PyErr ScaffoldBus :=
  match timeout_getter s with
  | .error e => .error e
  | .ok current =>
    match pushNewValue current value with
    | .error e => .error e
    | .ok v =>
      timeout_setter { s with timeout_stack := s.timeout_stack ++ [current] } v

/-- `ScaffoldBus.pop_timeout`: underflow check, then assign the popped value
through the setter. -/
def pop_timeout (s : ScaffoldBus) : Except PyErr ScaffoldBus :=
  match s.timeout_stack.getLast? with
  | none => .error (.runtimeError "Timeout setting stack is empty")
  | some v => timeout_setter { s with timeout_stack := s.timeout_stack.dropLast } v

/-- State of a `Register` object. -/
structure Register where
  address : Nat
  w : Bool
  r : Bool
  volatile : Bool
  wideness : Nat
  min_value : Int
  max_value : Int
  reset : Option Int
  cache : Option Int
deriving DecidableEq

/-- Maximum-bound check and final record construction of the `Register`
constructor. -/
def mkRegisterBounds (address : Nat) (wideness : Nat)
    (wFlag rFlag vFlag : Bool) (mv : Int) (max_value : Option Int)
    (reset : Option Int) : Except PyErr Register :=
  match max_value with
  | some xv =>
    if 0 ≤ xv ∧ xv < 2 ^ (wideness * 8) then
      if mv ≤ xv then
        .ok { address := address, w := wFlag, r := rFlag, volatile := vFlag,
              wideness := wideness, min_value := mv, max_value := xv,
              reset := reset, cache := none }
      else .error (.valueError "Register minimum value must be lower or equal to maximum value")
    else .error (.valueError "Invalid register maximum value")
  | none =>
    if mv ≤ 2 ^ (wideness * 8) - 1 then
      .ok { address := address, w := wFlag, r := rFlag, volatile := vFlag,
            wideness := wideness, min_value := mv,
            max_value := 2 ^ (wideness * 8) - 1,
            reset := reset, cache := none }
    else .error (.valueError "Register minimum value must be lower or equal to maximum value")

/-- The `Register` constructor: address check, mode-flag extraction,
wideness and bound checks; a register wider than one byte must not be
readable. -/
def mkRegister (mode : String) (address : Nat) (wideness : Nat)
    (min_value : Option Int) (max_value : Option Int) (reset : Option Int) :
    Except PyErr Register :=
  if address < 0x10000 then
    if wideness < 1 then .error (.valueError "Invalid wideness")
    else if 1 < wideness ∧ pyContainsChar mode (Char.ofNat 114) = true then
      .error (.valueError "Wideness must be 1 if register can be read.")
    else
      match min_value with
      | some mv =>
        if 0 ≤ mv ∧ mv < 2 ^ (wideness * 8) then
          mkRegisterBounds address wideness (pyContainsChar mode (Char.ofNat 119))
            (pyContainsChar mode (Char.ofNat 114)) (pyContainsChar mode (Char.ofNat 118))
            mv max_value reset
        else .error (.valueError "Invalid register minimum value")
      | none =>
        mkRegisterBounds address wideness (pyContainsChar mode (Char.ofNat 119))
          (pyContainsChar mode (Char.ofNat 114)) (pyContainsChar mode (Char.ofNat 118))
          0 max_value reset
  else .error (.valueError "Invalid register address")

/-- `Register.set`: bound checks, writability check, big-endian
serialization to `wideness` bytes (`int.to_bytes` raises `OverflowError`
outside `[0, 2^(8*wideness))`), one `Bus.write`, then the cache update. -/
def Register.set (reg : Register) (bus : ScaffoldBus) (value : Int)
    (poll : Option Poll) : Except PyErr (Register × ScaffoldBus) :=
  if value < reg.min_value then .error (.valueError "Value too low")
  else if reg.max_value < value then .error (.valueError "Value too high")
  else if reg.w = false then .error (.runtimeError "Register cannot be written")
  else
    if 0 ≤ value ∧ value < 2 ^ (reg.wideness * 8) then
      match bus_write bus reg.address (toBytesBE reg.wideness value.toNat) poll with
      | .error e => .error e
      | .ok bus2 => .ok ({ reg with cache := some value }, bus2)
    else .error .overflowError

/-- `Register.get`: a volatile register always reads the board; a
non-volatile one returns its cache when set, otherwise reads the board and
populates the cache, raising when the register is not readable. -/
def Register.get (reg : Register) (bus : ScaffoldBus) :
    Except PyErr (Int × Register × ScaffoldBus) :=
  if reg.volatile = true then
    if reg.r = false then .error (.runtimeError "Register cannot be read")
    else
      match bus_read bus reg.address 1 none with
      | .error e => .error e
      | .ok (got, bus2) =>
        match got.head? with
        | none => .error .indexError
        | some b => .ok ((b : Int), reg, bus2)
  else
    match reg.cache with
    | some c => .ok (c, reg, bus)
    | none =>
      if reg.r = true then
        match bus_read bus reg.address 1 none with
        | .error e => .error e
        | .ok (got, bus2) =>
          match got.head? with
          | none => .error .indexError
          | some b => .ok ((b : Int), { reg with cache := some (b : Int) }, bus2)
      else .error (.runtimeError "Register cannot be read")

/-- The four interconnect path tables of `ArchBase`. -/
structure Arch where
  mtxl_in : List String
  mtxl_out : List String
  mtxr_in : List String
  mtxr_out : List String

/-- `ArchBase.__ADDR_MTXR_BASE`. -/
def ADDR_MTXR_BASE : Nat := 0xf100

/-- `ArchBase.__ADDR_MTXL_BASE`. -/
def ADDR_MTXL_BASE : Nat := 0xf000

/-- `ArchBase.sig_connect` after both signals have been resolved to path
strings: destination membership check, ambiguity check, and the single
matrix-cell write `bus.write(base + dest index, source index)`. -/
def sig_connect (arch : Arch) (bus : ScaffoldBus)
    (dest_path src_path : String) : Except PyErr ScaffoldBus :=
  if !(arch.mtxr_out.contains dest_path || arch.mtxl_out.contains dest_path) then
    .error (.runtimeError "Invalid destination path")
  else
    if arch.mtxr_out.contains dest_path && arch.mtxr_in.contains src_path then
      if arch.mtxl_out.contains dest_path && arch.mtxl_in.contains src_path then
        .error (.runtimeError "Connection ambiguity")
      else
        bus_write_int bus (ADDR_MTXR_BASE + arch.mtxr_out.indexOf dest_path)
          (arch.mtxr_in.indexOf src_path) none
    else if arch.mtxl_out.contains dest_path && arch.mtxl_in.contains src_path then
      bus_write_int bus (ADDR_MTXL_BASE + arch.mtxl_out.indexOf dest_path)
        (arch.mtxl_in.indexOf src_path) none
    else .error (.runtimeError "Failed to connect")

/-- The chunk sizes produced by the `write`/`read` chunking loop for a
request of `n` bytes (fuel-structural, entered with `fuel = n`). -/
def chunkSizes : Nat → Nat → List Nat
  | _, 0 => []
  | 0, _ + 1 => []
  | fuel + 1, n + 1 =>
    min MAX_CHUNK (n + 1) :: chunkSizes fuel (n + 1 - min MAX_CHUNK (n + 1))

/-- The chunk sizes for a request of `n` bytes. -/
def chunks (n : Nat) : List Nat := chunkSizes n n

/-- The FIFO shadow-counter invariant: the counter equals the total
datagram footprint of the sent-but-unresolved operations. -/
def inv (s : ScaffoldBus) : Prop :=
  s.fifo_size = (sumDatagrams s.operations : Int)

instance (s : ScaffoldBus) : Decidable (inv s) := by
  unfold inv; infer_instance

/-- A freshly connected bus with no traffic, used by concrete runs. -/
def freshBus : ScaffoldBus :=
  { connected := true, version := some "0.9", rx := [], tx := [],
    timeout_unit := 1, cache_timeout := none, timeout_stack := [],
    operations := [], buffer_wait_operations := [], buffer_wait_stack := 0,
    fifo_size := 0, log := [] }

example :
    ∃ s2, operation freshBus (.writeOp 3 [9] none) = .ok s2 ∧
      s2.tx = [[1, 0, 3, 9]] ∧ s2.fifo_size = 4 := by
  exact ⟨_, rfl, by decide, by decide⟩

/-- The fresh bus after a fully acknowledged one-byte read at address 0. -/
def freshBusAfterRead : ScaffoldBus :=
  { freshBus with rx := [], tx := [[0, 0, 0]],
                  log := [(.readOp 0 1 none, .completed, [0xAB])] }

example :
    bus_read { freshBus with rx := [0xAB, 1] } 0 1 none =
      .ok ([0xAB], freshBusAfterRead) := by
  decide

/-- Configuration fields never touched by the submission/resolution
machinery: connection, version, timeout bookkeeping and the buffer-wait
nesting depth. -/
def sameCfg (s s2 : ScaffoldBus) : Prop :=
  s2.connected = s.connected ∧ s2.version = s.version ∧
  s2.buffer_wait_stack = s.buffer_wait_stack ∧
  s2.cache_timeout = s.cache_timeout ∧
  s2.timeout_stack = s.timeout_stack ∧
  s2.timeout_unit = s.timeout_unit

theorem sameCfg_refl (s : ScaffoldBus) : sameCfg s s :=
  ⟨rfl, rfl, rfl, rfl, rfl, rfl⟩

theorem sameCfg_trans {s s2 s3 : ScaffoldBus} (h : sameCfg s s2)
    (h2 : sameCfg s2 s3) : sameCfg s s3 := by
  obtain ⟨a, b, c, d, e, f⟩ := h
  obtain ⟨a2, b2, c2, d2, e2, f2⟩ := h2
  exact ⟨a2.trans a, b2.trans b, c2.trans c, d2.trans d, e2.trans e, f2.trans f⟩

theorem sumDatagrams_nil : sumDatagrams [] = 0 := rfl

theorem sumDatagrams_cons (op : Op) (l : List Op) :
    sumDatagrams (op :: l) = op.datagram.length + sumDatagrams l := by
  simp [sumDatagrams]

theorem sumDatagrams_append (l1 l2 : List Op) :
    sumDatagrams (l1 ++ l2) = sumDatagrams l1 + sumDatagrams l2 := by
  simp [sumDatagrams]

theorem member_le_sumDatagrams {op : Op} {l : List Op} (h : op ∈ l) :
    op.datagram.length ≤ sumDatagrams l := by
  induction l with
  | nil => cases h
  | cons hd tl ih =>
    rw [sumDatagrams_cons]
    rcases List.mem_cons.mp h with rfl | hm
    · omega
    · have := ih hm; omega

theorem datagram_length_pos (op : Op) : 0 < op.datagram.length := by
  cases op <;> simp [Op.datagram, datagram_head]

/-- Characterization of a successful `resolve_next_operation`: the oldest
operation is removed, its footprint deducted, a log entry appended, and all
other fields (in particular `tx`) untouched. -/
theorem resolve_next_ok {s : ScaffoldBus} {r} {s2 : ScaffoldBus}
    (h : resolve_next_operation s = .ok (r, s2)) :
    sameCfg s s2 ∧ s2.tx = s.tx ∧
    s2.buffer_wait_operations = s.buffer_wait_operations ∧
    s.operations = r.1 :: s2.operations ∧
    s2.fifo_size = s.fifo_size - r.1.datagram.length := by
  unfold resolve_next_operation at h
  split at h
  · exact absurd h (by simp)
  · next op rest heq =>
    cases hs : serRead s.rx op.response_size with
    | none => rw [hs] at h; simp at h
    | some p =>
      rw [hs] at h
      obtain ⟨data, rx2⟩ := p
      cases hr : op.resolve data with
      | error e => simp [hr] at h
      | ok q =>
        obtain ⟨st, res⟩ := q
        simp only [hr] at h
        split at h
        · simp at h
        · simp only [Except.ok.injEq, Prod.mk.injEq] at h
          obtain ⟨hr1, hr2⟩ := h
          subst hr1
          subst hr2
          refine ⟨⟨rfl, rfl, rfl, rfl, rfl, rfl⟩, rfl, rfl, ?_, rfl⟩
          simpa using heq

theorem resolve_next_inv {s : ScaffoldBus} {r} {s2 : ScaffoldBus}
    (hi : inv s) (h : resolve_next_operation s = .ok (r, s2)) :
    inv s2 ∧ s.fifo_size = s2.fifo_size + r.1.datagram.length := by
  obtain ⟨-, -, -, hops, hfifo⟩ := resolve_next_ok h
  unfold inv at hi ⊢
  rw [hops, sumDatagrams_cons] at hi
  constructor
  · rw [hfifo, hi]; push_cast; ring
  · rw [hfifo, hi]; push_cast; ring

/-- A successful `__require_fifo_space` only resolves pending operations:
configuration, `tx` and the deferred list are untouched, the invariant is
preserved, and on return the requested headroom is available. -/
theorem require_loop_ok {fuel size : Nat} {s s2 : ScaffoldBus}
    (h : require_fifo_space_loop fuel size s = .ok s2) :
    (sameCfg s s2 ∧ s2.tx = s.tx ∧
      s2.buffer_wait_operations = s.buffer_wait_operations) ∧
    ¬((FIFO_SIZE : Int) - s2.fifo_size < size) ∧
    (inv s → inv s2) := by
  induction fuel generalizing s with
  | zero =>
    unfold require_fifo_space_loop at h
    split at h
    · simp at h
    · next hc =>
      simp only [Except.ok.injEq] at h
      subst h
      exact ⟨⟨sameCfg_refl s, rfl, rfl⟩, hc, fun hi => hi⟩
  | succ n ih =>
    unfold require_fifo_space_loop at h
    split at h
    · cases hr : resolve_next_operation s with
      | error e => simp only [hr] at h; simp at h
      | ok p =>
        obtain ⟨r, s1⟩ := p
        simp only [hr] at h
        obtain ⟨⟨hcfg, htx, hbw⟩, hcond, hinv⟩ := ih h
        obtain ⟨hcfg1, htx1, hbw1, -, -⟩ := resolve_next_ok hr
        refine ⟨⟨sameCfg_trans hcfg1 hcfg, htx.trans htx1, hbw.trans hbw1⟩, hcond, ?_⟩
        intro hi
        exact hinv (resolve_next_inv hi hr).1
    · next hc =>
      simp only [Except.ok.injEq] at h
      subst h
      exact ⟨⟨sameCfg_refl s, rfl, rfl⟩, hc, fun hi => hi⟩

theorem require_ok {size : Nat} {s s2 : ScaffoldBus}
    (h : require_fifo_space size s = .ok s2) :
    (sameCfg s s2 ∧ s2.tx = s.tx ∧
      s2.buffer_wait_operations = s.buffer_wait_operations) ∧
    ¬((FIFO_SIZE : Int) - s2.fifo_size < size) ∧
    (inv s → inv s2) :=
  require_loop_ok h

/-- A successful `operation` never changes the configuration fields. -/
theorem operation_sameCfg {s : ScaffoldBus} {op : Op} {s2 : ScaffoldBus}
    (h : operation s op = .ok s2) : sameCfg s s2 := by
  unfold operation at h
  split at h
  · simp at h
  · split at h
    · simp at h
    · split at h
      · simp at h
      · split at h
        · split at h
          · cases hr : require_fifo_space op.datagram.length s with
            | error e => simp only [hr] at h; simp at h
            | ok s1 =>
              simp only [hr] at h
              simp only [Except.ok.injEq] at h
              subst h
              exact (require_ok hr).1.1
          · simp at h
        · simp only [Except.ok.injEq] at h
          subst h
          exact sameCfg_refl s

/-- FIFO accounting of a successful `operation`: the invariant is preserved
and — when the operation is actually submitted — the shadow counter stays
within the 512-byte capacity. -/
theorem operation_inv {s : ScaffoldBus} {op : Op} {s2 : ScaffoldBus}
    (hi : inv s) (h : operation s op = .ok s2) :
    inv s2 ∧ (s.buffer_wait_stack = 0 → s2.fifo_size ≤ FIFO_SIZE) := by
  unfold operation at h
  split at h
  · simp at h
  · split at h
    · simp at h
    · split at h
      · simp at h
      · split at h
        · next hstack =>
          split at h
          · cases hr : require_fifo_space op.datagram.length s with
            | error e => simp only [hr] at h; simp at h
            | ok s1 =>
              simp only [hr] at h
              simp only [Except.ok.injEq] at h
              subst h
              obtain ⟨-, hcond, hinv⟩ := require_ok hr
              have hi1 := hinv hi
              constructor
              · unfold inv at hi1 ⊢
                dsimp only
                simp only [sumDatagrams_append, sumDatagrams_cons, sumDatagrams_nil]
                rw [hi1]; push_cast; ring
              · intro _
                dsimp only
                omega
          · simp at h
        · next hstack =>
          simp only [Except.ok.injEq] at h
          subst h
          exact ⟨hi, fun h0 => absurd h0 hstack⟩

/-- Full characterization of a successful `operation`: either the section
stack is closed and the datagram was written to the wire after a successful
headroom wait, or a buffer-wait section is open and the operation was only
deferred. -/
theorem operation_cases {s : ScaffoldBus} {op : Op} {s2 : ScaffoldBus}
    (h : operation s op = .ok s2) :
    (s.buffer_wait_stack = 0 ∧
      ∃ s1, require_fifo_space op.datagram.length s = .ok s1 ∧
        s2 = { s1 with tx := s1.tx ++ [op.datagram],
                       operations := s1.operations ++ [op],
                       fifo_size := s1.fifo_size + op.datagram.length }) ∨
    (s.buffer_wait_stack ≠ 0 ∧
      s2 = { s with buffer_wait_operations := s.buffer_wait_operations ++ [op] }) := by
  unfold operation at h
  split at h
  · simp at h
  · split at h
    · simp at h
    · split at h
      · simp at h
      · split at h
        · next hst =>
          split at h
          · cases hr : require_fifo_space op.datagram.length s with
            | error e => simp only [hr] at h; simp at h
            | ok s1 =>
              simp only [hr] at h
              simp only [Except.ok.injEq] at h
              exact Or.inl ⟨hst, s1, rfl, h.symm⟩
          · simp at h
        · next hst =>
          simp only [Except.ok.injEq] at h
          exact Or.inr ⟨hst, h.symm⟩

/-- A submitted (non-deferred) `operation` appends exactly its datagram to
the wire log and itself at the end of the queue. -/
theorem operation_send {s : ScaffoldBus} {op : Op} {s2 : ScaffoldBus}
    (hstack : s.buffer_wait_stack = 0) (h : operation s op = .ok s2) :
    s2.tx = s.tx ++ [op.datagram] ∧
    s2.buffer_wait_operations = s.buffer_wait_operations ∧
    ∃ pre, s2.operations = pre ++ [op] := by
  rcases operation_cases h with ⟨-, s1, hr, rfl⟩ | ⟨hst, -⟩
  · obtain ⟨⟨-, htx, hbw⟩, -, -⟩ := require_ok hr
    exact ⟨by rw [htx], by rw [hbw], s1.operations, rfl⟩
  · exact absurd hstack hst

/-- A deferred `operation` (open buffer-wait section) only appends to the
deferred list. -/
theorem operation_buffered {s : ScaffoldBus} {op : Op} {s2 : ScaffoldBus}
    (hstack : s.buffer_wait_stack ≠ 0) (h : operation s op = .ok s2) :
    s2 = { s with buffer_wait_operations := s.buffer_wait_operations ++ [op] } := by
  rcases operation_cases h with ⟨hst, -, -, -⟩ | ⟨-, h2⟩
  · exact absurd hst hstack
  · exact h2

/-- A successful wait drains the whole queue through resolutions only:
no transmission, no configuration change, invariant preserved. -/
theorem waitAll_ok : ∀ {fuel : Nat} {s : ScaffoldBus} {r} {s2 : ScaffoldBus},
    waitAll fuel s = .ok (r, s2) →
    sameCfg s s2 ∧ s2.tx = s.tx ∧
    s2.buffer_wait_operations = s.buffer_wait_operations ∧
    s2.operations = [] ∧ (inv s → inv s2)
  | 0, s, r, s2, h => by simp [waitAll] at h
  | n + 1, s, r, s2, h => by
    unfold waitAll at h
    cases hr : resolve_next_operation s with
    | error e => simp only [hr] at h; simp at h
    | ok p =>
      obtain ⟨r1, s1⟩ := p
      simp only [hr] at h
      by_cases hemp : s1.operations = []
      · rw [if_pos hemp] at h
        simp only [Except.ok.injEq, Prod.mk.injEq] at h
        obtain ⟨h1, h2⟩ := h
        subst h1
        subst h2
        obtain ⟨hcfg, htx, hbw, -, -⟩ := resolve_next_ok hr
        exact ⟨hcfg, htx, hbw, hemp, fun hi => (resolve_next_inv hi hr).1⟩
      · rw [if_neg hemp] at h
        obtain ⟨hcfg, htx, hbw, hops, hinv⟩ := waitAll_ok h
        obtain ⟨hcfg1, htx1, hbw1, -, -⟩ := resolve_next_ok hr
        exact ⟨sameCfg_trans hcfg1 hcfg, htx.trans htx1, hbw.trans hbw1, hops,
          fun hi => hinv (resolve_next_inv hi hr).1⟩

/-- The write chunking loop preserves the FIFO invariant. -/
theorem bus_write_loop_inv {addr : Nat} {poll : Option Poll} :
    ∀ {fuel : Nat} {data : List Byte} {s s2 : ScaffoldBus},
    bus_write_loop addr poll fuel s data = .ok s2 → inv s → inv s2
  | _, [], s, s2, h, hi => by
    simp only [bus_write_loop, Except.ok.injEq] at h
    exact h ▸ hi
  | 0, b :: rest, s, s2, h, hi => by simp [bus_write_loop] at h
  | fuel + 1, b :: rest, s, s2, h, hi => by
    unfold bus_write_loop at h
    by_cases ha : addr < 0x10000
    · rw [if_pos ha] at h
      by_cases h0 : (List.take MAX_CHUNK (b :: rest)).length = 0
      · rw [if_pos h0] at h; simp at h
      · rw [if_neg h0] at h
        by_cases h255 : 255 < (List.take MAX_CHUNK (b :: rest)).length
        · rw [if_pos h255] at h; simp at h
        · rw [if_neg h255] at h
          cases hp : pollChecks poll with
          | error e => simp only [hp] at h; simp at h
          | ok u =>
            simp only [hp] at h
            cases ho : operation s (.writeOp addr (List.take MAX_CHUNK (b :: rest)) poll) with
            | error e => simp only [ho] at h; simp at h
            | ok s1 =>
              simp only [ho] at h
              exact bus_write_loop_inv h ((operation_inv hi ho).1)
    · rw [if_neg ha] at h; simp at h

/-- The read chunking loop preserves the FIFO invariant. -/
theorem bus_read_loop_inv {addr : Nat} {poll : Option Poll} :
    ∀ {fuel : Nat} {rem : Nat} {acc : List Byte} {s : ScaffoldBus}
    {r : List Byte} {s2 : ScaffoldBus},
    bus_read_loop addr poll fuel s rem acc = .ok (r, s2) → inv s → inv s2
  | _, 0, acc, s, r, s2, h, hi => by
    simp only [bus_read_loop, Except.ok.injEq, Prod.mk.injEq] at h
    exact h.2 ▸ hi
  | 0, m + 1, acc, s, r, s2, h, hi => by simp [bus_read_loop] at h
  | fuel + 1, m + 1, acc, s, r, s2, h, hi => by
    unfold bus_read_loop at h
    by_cases ha : addr < 0x10000
    · rw [if_pos ha] at h
      cases hp : pollChecks poll with
      | error e => simp only [hp] at h; simp at h
      | ok u =>
        simp only [hp] at h
        cases ho : operation s (.readOp addr (min MAX_CHUNK (m + 1)) poll) with
        | error e => simp only [ho] at h; simp at h
        | ok s1 =>
          simp only [ho] at h
          by_cases hst : s.buffer_wait_stack = 0
          · rw [if_pos hst] at h
            cases hw : waitAll s1.operations.length s1 with
            | error e => simp only [hw] at h; simp at h
            | ok p =>
              obtain ⟨⟨o1, st1, res1⟩, s3⟩ := p
              simp only [hw] at h
              cases hres : readResultAfterWait (min MAX_CHUNK (m + 1)) st1 res1 with
              | error e => simp only [hres] at h; simp at h
              | ok got =>
                simp only [hres] at h
                have hi1 := (operation_inv hi ho).1
                have hi3 := (waitAll_ok hw).2.2.2.2 hi1
                exact bus_read_loop_inv h hi3
          · rw [if_neg hst] at h; simp at h
    · rw [if_neg ha] at h; simp at h

/-- The deferred-submission loop preserves the FIFO invariant. -/
theorem submitAll_inv : ∀ {l : List Op} {s s2 : ScaffoldBus},
    submitAll s l = .ok s2 → inv s → inv s2
  | [], _, _, h, hi => by
    simp only [submitAll, Except.ok.injEq] at h
    exact h ▸ hi
  | op :: rest, s, s2, h, hi => by
    unfold submitAll at h
    cases hop : operation s op with
    | error e => simp only [hop] at h; simp at h
    | ok s1 =>
      simp only [hop] at h
      exact submitAll_inv h ((operation_inv hi hop).1)

/-- `pop_buffer_wait` preserves the FIFO invariant. -/
theorem pop_buffer_wait_inv {s s2 : ScaffoldBus}
    (h : pop_buffer_wait s = .ok s2) (hi : inv s) : inv s2 := by
  unfold pop_buffer_wait at h
  by_cases h0 : s.buffer_wait_stack = 0
  · rw [if_pos h0] at h; simp at h
  · rw [if_neg h0] at h
    by_cases h1 : s.buffer_wait_stack - 1 = 0
    · rw [if_pos h1] at h
      by_cases hbig : FIFO_SIZE < sumDatagrams s.buffer_wait_operations + 3
      · rw [if_pos hbig] at h; simp at h
      · rw [if_neg hbig] at h
        cases hreq : require_fifo_space (sumDatagrams s.buffer_wait_operations + 3)
            { s with buffer_wait_stack := s.buffer_wait_stack - 1 } with
        | error e => simp only [hreq] at h; simp at h
        | ok s1 =>
          simp only [hreq] at h
          have hi1 : inv s1 := (require_ok hreq).2.2 hi
          by_cases hlt : sumDatagrams s.buffer_wait_operations < 512
          · rw [if_pos hlt] at h
            cases hop : operation s1 (.bufferWait (sumDatagrams s.buffer_wait_operations)) with
            | error e => simp only [hop] at h; simp at h
            | ok s3 =>
              simp only [hop] at h
              cases hsub : submitAll s3 s.buffer_wait_operations with
              | error e => simp only [hsub] at h; simp at h
              | ok s4 =>
                simp only [hsub] at h
                simp only [Except.ok.injEq] at h
                have hi4 := submitAll_inv hsub ((operation_inv hi1 hop).1)
                rw [← h]
                exact hi4
          · rw [if_neg hlt] at h; simp at h
    · rw [if_neg h1] at h
      simp only [Except.ok.injEq] at h
      rw [← h]
      exact hi

/-- Length of the big-endian serialization. -/
theorem toBytesBE_length (n v : Nat) : (toBytesBE n v).length = n := by
  induction n generalizing v with
  | zero => rfl
  | succ m ih => simp [toBytesBE, ih]

/-- A single-chunk `Bus.write` (at most 255 bytes, nonempty) is the checks
followed by exactly one `operation`. -/
theorem bus_write_small {s : ScaffoldBus} {addr : Nat} {data : List Byte}
    {poll : Option Poll} (hlen : data.length ≤ 255) (hne : data ≠ []) :
    bus_write s addr data poll =
      (if addr < 0x10000 then
        match pollChecks poll with
        | .error e => .error e
        | .ok _ => operation s (.writeOp addr data poll)
      else .error (.valueError "Invalid address")) := by
  cases data with
  | nil => exact absurd rfl hne
  | cons b rest =>
    have htake : List.take MAX_CHUNK (b :: rest) = b :: rest :=
      List.take_of_length_le (by simpa [MAX_CHUNK] using hlen)
    have hdrop : List.drop MAX_CHUNK (b :: rest) = [] :=
      List.drop_eq_nil_of_le (by simpa [MAX_CHUNK] using hlen)
    show bus_write_loop addr poll (b :: rest).length s (b :: rest) = _
    rw [List.length_cons]
    unfold bus_write_loop
    rw [htake, hdrop]
    by_cases ha : addr < 0x10000
    · rw [if_pos ha, if_pos ha]
      have h0 : ¬(b :: rest).length = 0 := by simp
      have h255 : ¬255 < (b :: rest).length := by omega
      rw [if_neg h0, if_neg h255]
      cases hp : pollChecks poll with
      | error e => rfl
      | ok u =>
        cases ho : operation s (.writeOp addr (b :: rest) poll) with
        | error e => rfl
        | ok s1 => simp [bus_write_loop]
    · rw [if_neg ha, if_neg ha]

/-- A buffered `operation` reached with all its checks satisfied. -/
theorem operation_buffered_eq {s : ScaffoldBus} {op : Op} {v : String}
    (hconn : s.connected = true) (hver : s.version = some v)
    (hsup : op.supported v = true) (hstack : s.buffer_wait_stack ≠ 0) :
    operation s op =
      .ok { s with buffer_wait_operations := s.buffer_wait_operations ++ [op] } := by
  simp [operation, hconn, hver, hsup, hstack]

/-- C1: the FIFO shadow counter equals the sum of the datagram lengths of
the sent-but-unresolved operations before and after every public call
(`operation`, `write`, `read`, `resolve_next_operation`,
`pop_buffer_wait`); a successfully submitted operation never pushes the
counter past the 512-byte capacity because `operation` first waits for
headroom, and `resolve_next_operation` deducts exactly the resolved
operation's datagram length. -/
theorem C1_fifo_shadow_counter (s : ScaffoldBus) (h : inv s) :
    (∀ op s2, operation s op = .ok s2 →
      inv s2 ∧ (s.buffer_wait_stack = 0 → s2.fifo_size ≤ FIFO_SIZE)) ∧
    (∀ addr data poll s2, bus_write s addr data poll = .ok s2 → inv s2) ∧
    (∀ addr n poll r s2, bus_read s addr n poll = .ok (r, s2) → inv s2) ∧
    (∀ r s2, resolve_next_operation s = .ok (r, s2) →
      inv s2 ∧ s.fifo_size = s2.fifo_size + r.1.datagram.length) ∧
    (∀ s2, pop_buffer_wait s = .ok s2 → inv s2) := by
  refine ⟨?_, ?_, ?_, ?_, ?_⟩
  · exact fun op s2 hop => operation_inv h hop
  · exact fun addr data poll s2 hw => bus_write_loop_inv hw h
  · exact fun addr n poll r s2 hr => bus_read_loop_inv hr h
  · exact fun r s2 hr => resolve_next_inv h hr
  · exact fun s2 hp => pop_buffer_wait_inv hp h

/-- A bus with one unresolved one-byte write and its acknowledgement
queued. -/
def busC1 : ScaffoldBus :=
  { freshBus with operations := [.writeOp 0 [5] none], fifo_size := 4,
                  rx := [1] }

/-- The same bus after resolving that write. -/
def busC1r : ScaffoldBus :=
  { freshBus with log := [(.writeOp 0 [5] none, .completed, [])] }

theorem C1_witness :
    inv busC1 ∧
    (inv busC1r ∧
      busC1.fifo_size = busC1r.fifo_size + (Op.writeOp 0 [5] none).datagram.length) :=
  ⟨by decide,
    (C1_fifo_shadow_counter busC1 (by decide)).2.2.2.1
      (.writeOp 0 [5] none, .completed, []) busC1r (by decide)⟩

/-- C2: a write of length `L` (`1 ≤ L ≤ 255`) resolves `COMPLETED` iff the
device-reported completed count equals `L`, and `TIMEOUT` when the reported
count is smaller; a read of requested size `N` resolves `COMPLETED` iff the
reported count equals `N` and otherwise `TIMEOUT`, retaining exactly the
first reported-count bytes of the response; reading `result` on a timed-out
read raises a timeout failure carrying the partial data, its size and the
expected size. -/
theorem C2_resolution_and_result :
    (∀ (addr : Nat) (wdata : List Byte) (poll : Option Poll) (c : Nat),
      1 ≤ wdata.length → wdata.length ≤ 255 → c ≤ wdata.length →
      ((Op.resolve (.writeOp addr wdata poll) [c] = .ok (.completed, [])) ↔
        c = wdata.length) ∧
      (c < wdata.length →
        Op.resolve (.writeOp addr wdata poll) [c] = .ok (.timeout, []))) ∧
    (∀ (addr n : Nat) (poll : Option Poll) (d : List Byte) (c : Nat),
      d.length = n → c ≤ n →
      ((Op.resolve (.readOp addr n poll) (d ++ [c]) = .ok (.completed, d)) ↔
        c = n) ∧
      (c < n →
        Op.resolve (.readOp addr n poll) (d ++ [c]) = .ok (.timeout, d.take c))) ∧
    (∀ (n : Nat) (received : List Byte),
      readResultAfterWait n .timeout received =
        .error (.timeoutErr received received.length n)) := by
  refine ⟨?_, ?_, ?_⟩
  · intro addr wdata poll c h1 h255 hc
    constructor
    · constructor
      · intro h
        by_contra hne
        have hlt : c < wdata.length := lt_of_le_of_ne hc hne
        simp [Op.resolve, hne, hlt] at h
      · intro h
        simp [Op.resolve, h]
    · intro hlt
      have hne : ¬c = wdata.length := Nat.ne_of_lt hlt
      simp [Op.resolve, hne, hlt]
  · intro addr n poll d c hd hc
    have hlast : (d ++ [c]).getLast? = some c := by simp
    have htake : (d ++ [c]).take c = d.take c :=
      List.take_append_of_le_length (hd ▸ hc)
    constructor
    · constructor
      · intro h
        by_contra hne
        have hlt : c < n := lt_of_le_of_ne hc hne
        simp [Op.resolve, hlast, hne, hlt] at h
      · intro h
        subst h
        simp [Op.resolve, hlast, htake, hd ▸ List.take_length d]
    · intro hlt
      have hne : ¬c = n := Nat.ne_of_lt hlt
      simp [Op.resolve, hlast, hne, hlt, htake]
  · intro n received
    rfl

theorem C2_witness :
    (1 < 2 →
      Op.resolve (.writeOp 0 [7, 8] none) [1] = .ok (.timeout, [])) ∧
    ((Op.resolve (.writeOp 0 [7, 8] none) [1] = .ok (.completed, [])) ↔
      1 = 2) :=
  ⟨(C2_resolution_and_result.1 0 [7, 8] none 1 (by decide) (by decide)
      (by decide)).2,
   (C2_resolution_and_result.1 0 [7, 8] none 1 (by decide) (by decide)
      (by decide)).1⟩

/-- C9: with a buffer-wait section open, `Bus.read` buffers the chunk's
pending operation un-sent and then fails on `op.result`, whose `wait`
rejects a pending operation with a `RuntimeError`. -/
theorem C9_read_in_open_section (s : ScaffoldBus) (addr size : Nat)
    (poll : Option Poll) (v : String)
    (hstack : s.buffer_wait_stack ≠ 0) (hsize : 0 < size)
    (haddr : addr < 0x10000) (hconn : s.connected = true)
    (hver : s.version = some v) (hpoll : pollChecks poll = .ok ()) :
    bus_read s addr size poll =
      .error (.runtimeError "Cannot wait a pending operation") := by
  cases size with
  | zero => exact absurd hsize (by omega)
  | succ m =>
    show bus_read_loop addr poll (m + 1) s (m + 1) [] = _
    unfold bus_read_loop
    rw [if_pos haddr]
    simp only [hpoll]
    rw [operation_buffered_eq hconn hver (by rfl) hstack]
    simp [hstack]

/-- A fresh bus inside one buffer-wait section. -/
def busC9 : ScaffoldBus := { freshBus with buffer_wait_stack := 1 }

theorem C9_witness :
    bus_read busC9 0 1 none =
      .error (.runtimeError "Cannot wait a pending operation") :=
  C9_read_in_open_section busC9 0 1 none "0.9" (by decide) (by decide)
    (by decide) (by decide) (by decide) (by decide)

/-- C10: reading the `timeout` property before any timeout has ever been
assigned does not raise: the getter returns a `RuntimeError` instance as
the property value. -/
theorem C10_timeout_getter_unset (s : ScaffoldBus)
    (h : s.cache_timeout = none) :
    timeout_getter s = .ok (.errInstance "Timeout not set yet") := by
  unfold timeout_getter
  rw [h]

theorem C10_witness :
    timeout_getter freshBus = .ok (.errInstance "Timeout not set yet") :=
  C10_timeout_getter_unset freshBus rfl

/-- The headroom wait is a no-op when the FIFO already has room. -/
theorem require_noop {fuel size : Nat} {s : ScaffoldBus}
    (h : ¬((FIFO_SIZE : Int) - s.fifo_size < size)) :
    require_fifo_space_loop fuel size s = .ok s := by
  cases fuel <;> simp [require_fifo_space_loop, h]

/-- Exact result of a submitted `operation` when the FIFO already has room
for the datagram. -/
theorem operation_send_eq {s : ScaffoldBus} {op : Op} {v : String}
    (hconn : s.connected = true) (hver : s.version = some v)
    (hsup : op.supported v = true) (hstack : s.buffer_wait_stack = 0)
    (hlen : op.datagram.length < FIFO_SIZE)
    (hroom : ¬((FIFO_SIZE : Int) - s.fifo_size < op.datagram.length)) :
    operation s op =
      .ok { s with tx := s.tx ++ [op.datagram],
                   operations := s.operations ++ [op],
                   fifo_size := s.fifo_size + op.datagram.length } := by
  simp [operation, require_fifo_space, require_noop hroom, hconn, hver, hsup,
    hstack, hlen]

/-- Flushing a deferred list whose total footprint fits the remaining FIFO
room sends each datagram in order without any forced resolution. -/
theorem submitAll_spec {v : String} : ∀ {l : List Op} {s : ScaffoldBus},
    s.connected = true → s.version = some v →
    (∀ op ∈ l, op.supported v = true) → s.buffer_wait_stack = 0 →
    0 < s.fifo_size → s.fifo_size + (sumDatagrams l : Int) ≤ FIFO_SIZE →
    ∃ s2, submitAll s l = .ok s2 ∧ s2.tx = s.tx ++ l.map Op.datagram ∧
      s2.fifo_size = s.fifo_size + sumDatagrams l ∧ sameCfg s s2
  | [], s, _, _, _, _, _, _ =>
    ⟨s, rfl, by simp, by simp [sumDatagrams], sameCfg_refl s⟩
  | op :: rest, s, hconn, hver, hsup, hstack, hpos, hfit => by
    have hle : op.datagram.length ≤ sumDatagrams (op :: rest) := by
      rw [sumDatagrams_cons]; omega
    have hsum : sumDatagrams (op :: rest) =
        op.datagram.length + sumDatagrams rest := sumDatagrams_cons op rest
    have hlen : op.datagram.length < FIFO_SIZE := by
      rw [hsum] at hfit
      have : 0 < s.fifo_size := hpos
      push_cast at hfit
      omega
    have hroom : ¬((FIFO_SIZE : Int) - s.fifo_size < op.datagram.length) := by
      rw [hsum] at hfit
      push_cast at hfit
      omega
    have hsend := operation_send_eq hconn hver (hsup op (by simp)) hstack hlen hroom
    obtain ⟨s2, hrec, htx, hfifo, hcfg⟩ :=
      @submitAll_spec v rest { s with tx := s.tx ++ [op.datagram], operations := s.operations ++ [op], fifo_size := s.fifo_size + op.datagram.length }
        hconn hver (fun o ho => hsup o (by simp [ho])) hstack
        (by dsimp only; have := datagram_length_pos op; omega)
        (by dsimp only; rw [hsum] at hfit; push_cast at hfit ⊢; omega)
    refine ⟨s2, ?_, ?_, ?_, ?_⟩
    · unfold submitAll
      rw [hsend]
      exact hrec
    · rw [htx]; simp
    · rw [hfifo]; dsimp only; rw [hsum]; push_cast; ring
    · exact sameCfg_trans
        (by exact ⟨rfl, rfl, rfl, rfl, rfl, rfl⟩) hcfg

/-- C3: while a buffer-wait section is open no datagram is transmitted; the
outermost `pop_buffer_wait` submits exactly one buffer-wait datagram
declaring the total footprint of the deferred operations, followed by the
deferred operations' datagrams in their original submission order. -/
theorem C3_buffer_wait_section (s : ScaffoldBus) (v : String)
    (hconn : s.connected = true) (hver : s.version = some v) :
    (s.buffer_wait_stack ≠ 0 →
      ∀ op s2, operation s op = .ok s2 → s2.tx = s.tx) ∧
    (s.buffer_wait_stack = 1 → s.operations = [] → s.fifo_size = 0 →
      (∀ op ∈ s.buffer_wait_operations, op.supported v = true) →
      pyStrGe v "0.9" = true →
      sumDatagrams s.buffer_wait_operations + 3 ≤ FIFO_SIZE →
      ∃ s2, pop_buffer_wait s = .ok s2 ∧
        s2.tx = s.tx ++
          (Op.bufferWait (sumDatagrams s.buffer_wait_operations)).datagram ::
            s.buffer_wait_operations.map Op.datagram) := by
  constructor
  · intro hstack op s2 h
    rw [operation_buffered hstack h]
  · intro hstack hops hfifo hsup hbw hfit
    unfold pop_buffer_wait
    rw [if_neg (by omega), if_pos (by omega), if_neg (by omega)]
    have hnoop : require_fifo_space (sumDatagrams s.buffer_wait_operations + 3)
        { s with buffer_wait_stack := s.buffer_wait_stack - 1 } =
        .ok { s with buffer_wait_stack := s.buffer_wait_stack - 1 } := by
      unfold require_fifo_space
      refine require_noop ?_
      dsimp only
      rw [hfifo]
      simp only [FIFO_SIZE] at hfit ⊢
      push_cast
      omega
    rw [hnoop]
    dsimp only
    rw [if_pos (by simp only [FIFO_SIZE] at hfit ⊢; omega)]
    have hbwlen :
        (Op.bufferWait (sumDatagrams s.buffer_wait_operations)).datagram.length = 3 := by
      simp [Op.datagram, toBytesBE_length]
    have hsend := @operation_send_eq
      { s with buffer_wait_stack := s.buffer_wait_stack - 1 }
      (.bufferWait (sumDatagrams s.buffer_wait_operations))
      v hconn hver (by simpa [Op.supported] using hbw)
      (by dsimp only; omega)
      (by rw [hbwlen]; decide)
      (by rw [hbwlen]; dsimp only; rw [hfifo]; decide)
    rw [hsend]
    dsimp only
    obtain ⟨s4, hsub, htx, hfifo4, hcfg⟩ := @submitAll_spec
      v s.buffer_wait_operations
      { s with tx := s.tx ++ [(Op.bufferWait (sumDatagrams s.buffer_wait_operations)).datagram], operations := s.operations ++ [.bufferWait (sumDatagrams s.buffer_wait_operations)], buffer_wait_stack := s.buffer_wait_stack - 1, fifo_size := s.fifo_size + (Op.bufferWait (sumDatagrams s.buffer_wait_operations)).datagram.length }
      hconn hver hsup (by dsimp only; omega)
      (by dsimp only; rw [hbwlen, hfifo]; decide)
      (by dsimp only; rw [hbwlen, hfifo]; simp only [FIFO_SIZE] at hfit ⊢; push_cast; omega)
    rw [hsub]
    refine ⟨_, rfl, ?_⟩
    dsimp only
    rw [htx]
    simp

/-- A fresh bus inside one buffer-wait section with three deferred 6-byte
writes, each of footprint 10. -/
def busC3 : ScaffoldBus :=
  { freshBus with buffer_wait_stack := 1,
                  buffer_wait_operations := [.writeOp 0 [1, 1, 1, 1, 1, 1] none, .writeOp 0 [2, 2, 2, 2, 2, 2] none, .writeOp 0 [3, 3, 3, 3, 3, 3] none] }

/-- The bus of `busC3` after the outermost `pop_buffer_wait`: exactly four
datagrams on the wire, the first a buffer-wait header declaring 30. -/
def busC3r : ScaffoldBus :=
  { freshBus with tx := [[10, 0, 30], [3, 0, 0, 6, 1, 1, 1, 1, 1, 1], [3, 0, 0, 6, 2, 2, 2, 2, 2, 2], [3, 0, 0, 6, 3, 3, 3, 3, 3, 3]],
                  operations := [.bufferWait 30, .writeOp 0 [1, 1, 1, 1, 1, 1] none, .writeOp 0 [2, 2, 2, 2, 2, 2] none, .writeOp 0 [3, 3, 3, 3, 3, 3] none],
                  fifo_size := 33 }

/-- Datagram of a one-byte non-polled write. -/
theorem write1_datagram (a x : Nat) :
    (Op.writeOp a [x] none).datagram = [1, a / 256, a % 256, x] := by
  simp [Op.datagram, datagram_head]

/-- Exact behaviour of `Bus.write` called with a small `int` on a bus whose
FIFO is empty. -/
theorem bus_write_int_small {bus : ScaffoldBus} {a x : Nat} {v : String}
    (hx : x < 256) (ha : a < 0x10000) (hconn : bus.connected = true)
    (hver : bus.version = some v) (hstack : bus.buffer_wait_stack = 0)
    (hfifo : bus.fifo_size = 0) :
    bus_write_int bus a x none =
      .ok { bus with tx := bus.tx ++ [(Op.writeOp a [x] none).datagram],
                     operations := bus.operations ++ [.writeOp a [x] none],
                     fifo_size := bus.fifo_size + (Op.writeOp a [x] none).datagram.length } := by
  unfold bus_write_int
  rw [if_pos hx, bus_write_small (by simp) (by simp), if_pos ha]
  exact operation_send_eq hconn hver rfl hstack
    (by simp [Op.datagram, datagram_head, FIFO_SIZE])
    (by rw [hfifo]; simp [Op.datagram, datagram_head, FIFO_SIZE])

theorem C3_witness :
    (∃ s2, pop_buffer_wait busC3 = .ok s2 ∧
      s2.tx = busC3.tx ++
        (Op.bufferWait (sumDatagrams busC3.buffer_wait_operations)).datagram ::
          busC3.buffer_wait_operations.map Op.datagram) ∧
    pop_buffer_wait busC3 = .ok busC3r ∧ busC3r.tx.length = 4 :=
  ⟨(C3_buffer_wait_section busC3 "0.9" (by decide) (by decide)).2 (by decide)
      (by decide) (by decide) (by decide) (by decide) (by decide),
   by decide, by decide⟩

/-- C4: with the source already resolved to a path, `sig_connect` raises a
naming-collision error when both matrices match, raises a path error when
neither matches, and performs exactly one bus write of the source index to
(matrix base + destination index) when exactly one matches. -/
theorem C4_sig_connect (arch : Arch) (bus : ScaffoldBus)
    (dest_path src_path : String) (v : String)
    (hconn : bus.connected = true) (hver : bus.version = some v)
    (hstack : bus.buffer_wait_stack = 0) (hfifo : bus.fifo_size = 0) :
    ((arch.mtxr_out.contains dest_path && arch.mtxr_in.contains src_path) = true →
      (arch.mtxl_out.contains dest_path && arch.mtxl_in.contains src_path) = true →
      sig_connect arch bus dest_path src_path =
        .error (.runtimeError "Connection ambiguity")) ∧
    ((arch.mtxr_out.contains dest_path && arch.mtxr_in.contains src_path) = false →
      (arch.mtxl_out.contains dest_path && arch.mtxl_in.contains src_path) = false →
      ∃ m, sig_connect arch bus dest_path src_path = .error (.runtimeError m) ∧
        (m = "Invalid destination path" ∨ m = "Failed to connect")) ∧
    ((arch.mtxr_out.contains dest_path && arch.mtxr_in.contains src_path) = true →
      (arch.mtxl_out.contains dest_path && arch.mtxl_in.contains src_path) = false →
      arch.mtxr_in.indexOf src_path < 256 →
      ADDR_MTXR_BASE + arch.mtxr_out.indexOf dest_path < 0x10000 →
      ∃ s2, sig_connect arch bus dest_path src_path = .ok s2 ∧
        s2.tx = bus.tx ++
          [(Op.writeOp (ADDR_MTXR_BASE + arch.mtxr_out.indexOf dest_path)
            [arch.mtxr_in.indexOf src_path] none).datagram]) ∧
    ((arch.mtxr_out.contains dest_path && arch.mtxr_in.contains src_path) = false →
      (arch.mtxl_out.contains dest_path && arch.mtxl_in.contains src_path) = true →
      arch.mtxl_in.indexOf src_path < 256 →
      ADDR_MTXL_BASE + arch.mtxl_out.indexOf dest_path < 0x10000 →
      ∃ s2, sig_connect arch bus dest_path src_path = .ok s2 ∧
        s2.tx = bus.tx ++
          [(Op.writeOp (ADDR_MTXL_BASE + arch.mtxl_out.indexOf dest_path)
            [arch.mtxl_in.indexOf src_path] none).datagram]) := by
  refine ⟨?_, ?_, ?_, ?_⟩
  · intro hr hl
    obtain ⟨hro, -⟩ := Bool.and_eq_true_iff.mp hr
    unfold sig_connect
    rw [if_neg (by rw [hro]; simp), if_pos hr, if_pos hl]
  · intro hr hl
    unfold sig_connect
    by_cases hd : (arch.mtxr_out.contains dest_path ||
        arch.mtxl_out.contains dest_path) = true
    · rw [if_neg (by rw [hd]; decide), if_neg (by rw [hr]; exact Bool.false_ne_true),
        if_neg (by rw [hl]; exact Bool.false_ne_true)]
      exact ⟨"Failed to connect", rfl, Or.inr rfl⟩
    · have hd2 : (arch.mtxr_out.contains dest_path ||
          arch.mtxl_out.contains dest_path) = false := by
        revert hd
        cases arch.mtxr_out.contains dest_path ||
          arch.mtxl_out.contains dest_path <;> simp
      rw [if_pos (by rw [hd2]; rfl)]
      exact ⟨"Invalid destination path", rfl, Or.inl rfl⟩
  · intro hr hl hx ha
    obtain ⟨hro, -⟩ := Bool.and_eq_true_iff.mp hr
    have hmain : sig_connect arch bus dest_path src_path =
        .ok { bus with tx := bus.tx ++ [(Op.writeOp (ADDR_MTXR_BASE + arch.mtxr_out.indexOf dest_path) [arch.mtxr_in.indexOf src_path] none).datagram], operations := bus.operations ++ [.writeOp (ADDR_MTXR_BASE + arch.mtxr_out.indexOf dest_path) [arch.mtxr_in.indexOf src_path] none], fifo_size := bus.fifo_size + (Op.writeOp (ADDR_MTXR_BASE + arch.mtxr_out.indexOf dest_path) [arch.mtxr_in.indexOf src_path] none).datagram.length } := by
      unfold sig_connect
      rw [if_neg (by rw [hro]; simp), if_pos hr,
        if_neg (by rw [hl]; exact Bool.false_ne_true)]
      exact bus_write_int_small hx ha hconn hver hstack hfifo
    exact ⟨_, hmain, rfl⟩
  · intro hr hl hx ha
    obtain ⟨hlo, -⟩ := Bool.and_eq_true_iff.mp hl
    have hmain : sig_connect arch bus dest_path src_path =
        .ok { bus with tx := bus.tx ++ [(Op.writeOp (ADDR_MTXL_BASE + arch.mtxl_out.indexOf dest_path) [arch.mtxl_in.indexOf src_path] none).datagram], operations := bus.operations ++ [.writeOp (ADDR_MTXL_BASE + arch.mtxl_out.indexOf dest_path) [arch.mtxl_in.indexOf src_path] none], fifo_size := bus.fifo_size + (Op.writeOp (ADDR_MTXL_BASE + arch.mtxl_out.indexOf dest_path) [arch.mtxl_in.indexOf src_path] none).datagram.length } := by
      unfold sig_connect
      rw [if_neg (by rw [hlo]; simp), if_neg (by rw [hr]; exact Bool.false_ne_true),
        if_pos hl]
      exact bus_write_int_small hx ha hconn hver hstack hfifo
    exact ⟨_, hmain, rfl⟩

/-- A small interconnect with one right sink, one right source, one left
sink and the left constant sources. -/
def archC4 : Arch :=
  { mtxl_in := ["0", "1", "z", "/io/d0"], mtxl_out := ["/uart0/rx"],
    mtxr_in := ["/uart0/tx"], mtxr_out := ["/io/a0"] }

theorem C4_witness :
    ∃ s2, sig_connect archC4 freshBus "/io/a0" "/uart0/tx" = .ok s2 ∧
      s2.tx = freshBus.tx ++
        [(Op.writeOp (ADDR_MTXR_BASE + archC4.mtxr_out.indexOf "/io/a0")
          [archC4.mtxr_in.indexOf "/uart0/tx"] none).datagram] :=
  (C4_sig_connect archC4 freshBus "/io/a0" "/uart0/tx" "0.9" (by decide)
    (by decide) (by decide) (by decide)).2.2.1 (by decide) (by decide)
    (by decide) (by decide)

/-- Footprint bound for a write datagram: header, optional polling fields
and optional size byte total at most 8 bytes. -/
theorem write_datagram_length_le (a : Nat) (data : List Byte)
    (poll : Option Poll) :
    (Op.writeOp a data poll).datagram.length ≤ 8 + data.length := by
  cases poll <;> simp [Op.datagram, datagram_head] <;> split <;> simp <;> omega

/-- C5: `Register.set` rejects values outside `[min, max]` before any
transmission and rejects non-writable registers; an in-bounds value on a
writable register is serialized to exactly `wideness` big-endian bytes,
issued as a single `Bus.write` at the register's address, and cached
immediately, so that a subsequent `get` on a non-volatile register returns
the value with no bus traffic. -/
theorem C5_register_set (reg : Register) (bus : ScaffoldBus) (value : Int)
    (poll : Option Poll) :
    ((value < reg.min_value ∨ reg.max_value < value) →
      ∃ m, Register.set reg bus value poll = .error (.valueError m)) ∧
    (reg.min_value ≤ value → value ≤ reg.max_value → reg.w = false →
      Register.set reg bus value poll =
        .error (.runtimeError "Register cannot be written")) ∧
    (reg.min_value ≤ value → value ≤ reg.max_value → reg.w = true →
      0 ≤ reg.min_value → value < 2 ^ (reg.wideness * 8) →
      1 ≤ reg.wideness → reg.wideness ≤ 255 →
      reg.address < 0x10000 → pollChecks poll = .ok () →
      bus.connected = true → (∃ v, bus.version = some v) →
      bus.buffer_wait_stack = 0 → bus.operations = [] → bus.fifo_size = 0 →
      (toBytesBE reg.wideness value.toNat).length = reg.wideness ∧
      ∃ bus2, Register.set reg bus value poll =
          .ok ({ reg with cache := some value }, bus2) ∧
        bus2.tx = bus.tx ++
          [(Op.writeOp reg.address (toBytesBE reg.wideness value.toNat) poll).datagram] ∧
        (reg.volatile = false →
          Register.get { reg with cache := some value } bus2 =
            .ok (value, { reg with cache := some value }, bus2))) := by
  refine ⟨?_, ?_, ?_⟩
  · intro hout
    unfold Register.set
    by_cases hlow : value < reg.min_value
    · rw [if_pos hlow]
      exact ⟨"Value too low", rfl⟩
    · rw [if_neg hlow, if_pos (by omega)]
      exact ⟨"Value too high", rfl⟩
  · intro hmin hmax hw
    unfold Register.set
    rw [if_neg (by omega), if_neg (by omega), if_pos hw]
  · intro hmin hmax hw hmin0 htop hw1 hw255 haddr hpoll hconn hver hstack hops hfifo
    obtain ⟨v, hv⟩ := hver
    refine ⟨toBytesBE_length reg.wideness value.toNat, ?_⟩
    have hlen : (toBytesBE reg.wideness value.toNat).length = reg.wideness :=
      toBytesBE_length reg.wideness value.toNat
    have hne : toBytesBE reg.wideness value.toNat ≠ [] := by
      intro hnil
      rw [hnil] at hlen
      simp at hlen
      omega
    have hdlen : (Op.writeOp reg.address (toBytesBE reg.wideness value.toNat) poll).datagram.length ≤ 263 := by
      have := write_datagram_length_le reg.address (toBytesBE reg.wideness value.toNat) poll
      omega
    have hsend := @operation_send_eq bus
      (.writeOp reg.address (toBytesBE reg.wideness value.toNat) poll)
      v hconn hv rfl hstack (by simp only [FIFO_SIZE]; omega)
      (by rw [hfifo]; simp only [FIFO_SIZE]; push_cast; omega)
    have hmain : Register.set reg bus value poll =
        .ok ({ reg with cache := some value }, { bus with tx := bus.tx ++ [(Op.writeOp reg.address (toBytesBE reg.wideness value.toNat) poll).datagram], operations := bus.operations ++ [.writeOp reg.address (toBytesBE reg.wideness value.toNat) poll], fifo_size := bus.fifo_size + (Op.writeOp reg.address (toBytesBE reg.wideness value.toNat) poll).datagram.length }) := by
      unfold Register.set
      rw [if_neg (by omega), if_neg (by omega), if_neg (by rw [hw]; simp),
        if_pos ⟨by omega, htop⟩]
      rw [bus_write_small (by omega) hne, if_pos haddr]
      simp only [hpoll]
      rw [hsend]
    refine ⟨_, hmain, rfl, ?_⟩
    intro hvol
    unfold Register.get
    rw [if_neg (by rw [hvol]; simp)]

/-- The write-only byte register of the spec example: mode `w`, address
0x10, bounds `[0, 255]`. -/
def regC5 : Register :=
  { address := 0x10, w := true, r := false, volatile := false, wideness := 1,
    min_value := 0, max_value := 255, reset := none, cache := none }

theorem C5_witness :
    (∃ m, Register.set regC5 freshBus 256 none = .error (.valueError m)) ∧
    ((toBytesBE regC5.wideness (Int.toNat 0)).length = regC5.wideness ∧
      ∃ bus2, Register.set regC5 freshBus 0 none =
          .ok ({ regC5 with cache := some 0 }, bus2) ∧
        bus2.tx = freshBus.tx ++
          [(Op.writeOp regC5.address (toBytesBE regC5.wideness (Int.toNat 0)) none).datagram] ∧
        (regC5.volatile = false →
          Register.get { regC5 with cache := some 0 } bus2 =
            .ok (0, { regC5 with cache := some 0 }, bus2))) :=
  ⟨(C5_register_set regC5 freshBus 256 none).1 (by decide),
   (C5_register_set regC5 freshBus 0 none).2.2 (by decide) (by decide)
     (by decide) (by decide) (by decide) (by decide) (by decide) (by decide)
     (by decide) (by decide) ⟨"0.9", rfl⟩ (by decide) (by decide) (by decide)⟩

/-- The chunk sizes are nonempty chunks of at most 255 bytes summing to the
requested size. -/
theorem chunkSizes_spec : ∀ {fuel n : Nat}, n ≤ fuel →
    (chunkSizes fuel n).sum = n ∧ ∀ c ∈ chunkSizes fuel n, 1 ≤ c ∧ c ≤ 255
  | fuel, 0, _ => by simp [chunkSizes]
  | 0, n + 1, h => by omega
  | fuel + 1, n + 1, h => by
    have hrec := @chunkSizes_spec fuel (n + 1 - min MAX_CHUNK (n + 1))
      (by simp only [MAX_CHUNK]; omega)
    unfold chunkSizes
    constructor
    · simp only [List.sum_cons, hrec.1]
      omega
    · intro c hc
      rcases List.mem_cons.mp hc with rfl | hm
      · constructor
        · simp only [MAX_CHUNK]; omega
        · simp only [MAX_CHUNK]; omega
      · exact hrec.2 c hm

/-- Wire and queue effect of the read chunking loop: each chunk appends one
read datagram and the loop never returns with an unresolved operation. -/
theorem bus_read_loop_trace {addr : Nat} {poll : Option Poll} :
    ∀ {fuel rem : Nat} {acc : List Byte} {s : ScaffoldBus} {r : List Byte}
    {s2 : ScaffoldBus},
    bus_read_loop addr poll fuel s rem acc = .ok (r, s2) →
    s2.tx = s.tx ++
      (chunkSizes fuel rem).map (fun c => (Op.readOp addr c poll).datagram) ∧
    (0 < rem → s2.operations = []) ∧ (rem = 0 → s2 = s)
  | _, 0, acc, s, r, s2, h => by
    simp only [bus_read_loop, Except.ok.injEq, Prod.mk.injEq] at h
    exact ⟨by rw [← h.2]; simp [chunkSizes], by omega, fun _ => h.2.symm⟩
  | 0, m + 1, acc, s, r, s2, h => by simp [bus_read_loop] at h
  | fuel + 1, m + 1, acc, s, r, s2, h => by
    unfold bus_read_loop at h
    by_cases ha : addr < 0x10000
    · rw [if_pos ha] at h
      cases hp : pollChecks poll with
      | error e => simp only [hp] at h; simp at h
      | ok u =>
        simp only [hp] at h
        cases ho : operation s (.readOp addr (min MAX_CHUNK (m + 1)) poll) with
        | error e => simp only [ho] at h; simp at h
        | ok s1 =>
          simp only [ho] at h
          by_cases hst : s.buffer_wait_stack = 0
          · rw [if_pos hst] at h
            cases hw : waitAll s1.operations.length s1 with
            | error e => simp only [hw] at h; simp at h
            | ok p =>
              obtain ⟨⟨o1, st1, res1⟩, s3⟩ := p
              simp only [hw] at h
              cases hres : readResultAfterWait (min MAX_CHUNK (m + 1)) st1 res1 with
              | error e => simp only [hres] at h; simp at h
              | ok got =>
                simp only [hres] at h
                obtain ⟨htx2, hops2, hbase⟩ := bus_read_loop_trace h
                obtain ⟨htx1, -, -⟩ := operation_send hst ho
                obtain ⟨-, htxw, -, hopsw, -⟩ := waitAll_ok hw
                refine ⟨?_, fun _ => ?_, fun h0 => by omega⟩
                · rw [htx2, htxw, htx1]
                  rw [show chunkSizes (fuel + 1) (m + 1) = min MAX_CHUNK (m + 1) ::
                    chunkSizes fuel (m + 1 - min MAX_CHUNK (m + 1)) from rfl]
                  simp
                · by_cases hz : m + 1 - min MAX_CHUNK (m + 1) = 0
                  · rw [hz] at hbase
                    rw [hbase rfl]
                    exact hopsw
                  · exact hops2 (by omega)
          · rw [if_neg hst] at h
            simp at h
    · rw [if_neg ha] at h
      simp at h

/-- C7 as written is refuted by the code: `ScaffoldBus.read` accesses
`op.result` for every chunk whether or not polling was requested, so a
non-polled read is resolved eagerly instead of being left pending; after a
successful one-byte non-polled read the operation queue is empty and the
operation is logged as completed. -/
theorem C7_counterexample :
    bus_read { freshBus with rx := [0xAB, 1] } 0 1 none =
      .ok ([0xAB], freshBusAfterRead) ∧
    freshBusAfterRead.operations = [] ∧
    freshBusAfterRead.log = [(.readOp 0 1 none, .completed, [0xAB])] := by
  decide

/-- C7 amended: `Bus.read` splits the request into chunks of at most 255
bytes, each producing one read Operation, and — for polled and non-polled
reads alike — forces resolution of every chunk immediately, so a successful
read never leaves an operation pending. -/
theorem C7_amended_read_chunks (s : ScaffoldBus) (addr size : Nat)
    (poll : Option Poll) (r : List Byte) (s2 : ScaffoldBus)
    (h : bus_read s addr size poll = .ok (r, s2)) :
    s2.tx = s.tx ++
      (chunks size).map (fun c => (Op.readOp addr c poll).datagram) ∧
    (0 < size → s2.operations = []) ∧
    (chunks size).sum = size ∧
    (∀ c ∈ chunks size, 1 ≤ c ∧ c ≤ 255) := by
  obtain ⟨htx, hops, -⟩ := bus_read_loop_trace h
  obtain ⟨hsum, hmem⟩ := @chunkSizes_spec size size le_rfl
  exact ⟨htx, hops, hsum, hmem⟩

theorem C7_witness :
    freshBusAfterRead.tx = freshBus.tx ++
      (chunks 1).map (fun c => (Op.readOp 0 c none).datagram) ∧
    (0 < 1 → freshBusAfterRead.operations = []) ∧
    (chunks 1).sum = 1 ∧ (∀ c ∈ chunks 1, 1 ≤ c ∧ c ≤ 255) :=
  C7_amended_read_chunks { freshBus with rx := [0xAB, 1] } 0 1 none [0xAB]
    freshBusAfterRead (by decide)

/-- Fields of a register built by the constructor tail. -/
theorem mkRegisterBounds_fields {address wideness : Nat} {wF rF vF : Bool}
    {mv : Int} {mx : Option Int} {rs : Option Int} {reg : Register}
    (h : mkRegisterBounds address wideness wF rF vF mv mx rs = .ok reg) :
    reg.r = rF ∧ reg.wideness = wideness := by
  unfold mkRegisterBounds at h
  split at h
  · split at h
    · split at h
      · simp only [Except.ok.injEq] at h
        rw [← h]
        exact ⟨rfl, rfl⟩
      · simp at h
    · simp at h
  · split at h
    · simp only [Except.ok.injEq] at h
      rw [← h]
      exact ⟨rfl, rfl⟩
    · simp at h

/-- The wide register constructed by the C8 counterexample run: mode `w`,
address 16, two bytes wide. -/
def regC8 : Register :=
  { address := 16, w := true, r := false, volatile := false, wideness := 2,
    min_value := 0, max_value := 65535, reset := none, cache := none }

/-- The fresh bus after `regC8.set 5`. -/
def busC8r : ScaffoldBus :=
  { freshBus with tx := [[3, 0, 16, 2, 0, 5]],
                  operations := [.writeOp 16 [0, 5] none], fifo_size := 6 }

/-- C8 as written is refuted by the code: a non-volatile register of width
2 whose cache has been populated by `set` returns the cached value from
`get()` instead of raising. -/
theorem C8_counterexample :
    mkRegister "w" 16 2 none none none = .ok regC8 ∧
    Register.set regC8 freshBus 5 none =
      .ok ({ regC8 with cache := some 5 }, busC8r) ∧
    Register.get { regC8 with cache := some 5 } busC8r =
      .ok (5, { regC8 with cache := some 5 }, busC8r) := by
  decide

/-- C8 amended: constructing a register with width greater than one and
read mode is rejected, and every constructed register with width greater
than one is not readable; `get()` on a non-readable register raises when it
is volatile or when its cache is unset, and returns the cached value once a
`set` has populated the cache. -/
theorem C8_amended_wide_registers (mode : String) (address wideness : Nat)
    (mn mx rs : Option Int) (reg : Register) (bus : ScaffoldBus) :
    (mkRegister mode address wideness mn mx rs = .ok reg →
      1 < reg.wideness → reg.r = false) ∧
    (address < 0x10000 → 1 < wideness →
      pyContainsChar mode (Char.ofNat 114) = true →
      mkRegister mode address wideness mn mx rs =
        .error (.valueError "Wideness must be 1 if register can be read.")) ∧
    (reg.r = false → reg.volatile = true →
      Register.get reg bus = .error (.runtimeError "Register cannot be read")) ∧
    (reg.r = false → reg.volatile = false → reg.cache = none →
      Register.get reg bus = .error (.runtimeError "Register cannot be read")) ∧
    (∀ c : Int, reg.volatile = false → reg.cache = some c →
      Register.get reg bus = .ok (c, reg, bus)) := by
  refine ⟨?_, ?_, ?_, ?_, ?_⟩
  · intro h hwide
    unfold mkRegister at h
    split at h
    · split at h
      · simp at h
      · split at h
        · simp at h
        · next hguard =>
          have hfields : reg.r = pyContainsChar mode (Char.ofNat 114) ∧
              reg.wideness = wideness := by
            cases mn with
            | some mv =>
              split at h
              · split at h
                · exact mkRegisterBounds_fields h
                · simp at h
              · simp_all
            | none => exact mkRegisterBounds_fields h
          cases hc : pyContainsChar mode (Char.ofNat 114) with
          | true =>
            rw [hfields.2] at hwide
            exact absurd ⟨hwide, hc⟩ hguard
          | false => rw [hfields.1, hc]
    · simp at h
  · intro haddr hw hr
    unfold mkRegister
    rw [if_pos haddr, if_neg (by omega), if_pos ⟨hw, hr⟩]
  · intro hr hvol
    unfold Register.get
    rw [if_pos hvol, if_pos hr]
  · intro hr hvol hcache
    unfold Register.get
    rw [if_neg (by rw [hvol]; simp)]
    simp only [hcache]
    rw [if_neg (by rw [hr]; simp)]
  · intro c hvol hcache
    unfold Register.get
    rw [if_neg (by rw [hvol]; simp)]
    simp only [hcache]

theorem C8_witness :
    mkRegister "rw" 0 2 none none none =
      .error (.valueError "Wideness must be 1 if register can be read.") :=
  (C8_amended_wide_registers "rw" 0 2 none none none regC8 freshBus).2.1
    (by decide) (by decide) (by decide)

/-- The cache written by the setter tail, and the fields it preserves. -/
theorem timeout_set_n_ok {s : ScaffoldBus} {n : Nat} {s2 : ScaffoldBus}
    (h : timeout_set_n s n = .ok s2) :
    s2.cache_timeout = some n ∧ s2.timeout_unit = s.timeout_unit ∧
    s2.timeout_stack = s.timeout_stack := by
  unfold timeout_set_n at h
  split at h
  · next hcache =>
    simp only [Except.ok.injEq] at h
    subst h
    exact ⟨hcache.symm, rfl, rfl⟩
  · split at h
    · cases hop : operation s (.timeoutCfg n) with
      | error e => simp only [hop] at h; simp at h
      | ok s1 =>
        simp only [hop, Except.ok.injEq] at h
        subst h
        obtain ⟨-, -, -, -, hstack2, hunit2⟩ := operation_sameCfg hop
        exact ⟨rfl, hunit2, hstack2⟩
    · simp at h

/-- Converting a nonzero unit count to seconds and back through the setter
arithmetic is the identity on exact rationals. -/
theorem pyInt_units_roundtrip {c0 : Nat} {u : ℚ} (hu : 0 < u) (h0 : c0 ≠ 0) :
    (max 1 (pyInt ((c0 : ℚ) * u / u))).toNat = c0 := by
  rw [mul_div_cancel_right₀ _ (ne_of_gt hu)]
  unfold pyInt
  rw [if_neg (by simp), Int.floor_natCast]
  have h1 : (1 : ℤ) ≤ (c0 : ℤ) := by
    have := Nat.one_le_iff_ne_zero.mpr h0
    exact_mod_cast this
  rw [max_eq_right h1]
  simp

/-- A successful `push_timeout` appends the current property value to the
timeout stack and leaves the timeout unit unchanged. -/
theorem push_timeout_ok {s : ScaffoldBus} {x : Option ℚ} {cur : TimeoutVal}
    {s1 : ScaffoldBus} (hg : timeout_getter s = .ok cur)
    (h1 : push_timeout s x = .ok s1) :
    s1.timeout_unit = s.timeout_unit ∧
    s1.timeout_stack = s.timeout_stack ++ [cur] := by
  unfold push_timeout at h1
  simp only [hg] at h1
  cases hnv : pushNewValue cur x with
  | error e => simp only [hnv] at h1; simp at h1
  | ok v =>
    simp only [hnv] at h1
    cases v with
    | errInstance m => simp [timeout_setter] at h1
    | noneVal =>
      obtain ⟨-, hunit, hstack⟩ := timeout_set_n_ok h1
      exact ⟨hunit, hstack⟩
    | val q =>
      obtain ⟨-, hunit, hstack⟩ := timeout_set_n_ok h1
      exact ⟨hunit, hstack⟩

/-- Popping a stack whose top is a disabled timeout restores a disabled
timeout. -/
theorem pop_restores_none {s s1 s2 : ScaffoldBus}
    (hstack1 : s1.timeout_stack = s.timeout_stack ++ [.noneVal])
    (h2 : pop_timeout s1 = .ok s2) : s2.cache_timeout = some 0 := by
  unfold pop_timeout at h2
  rw [hstack1] at h2
  have hl : (s.timeout_stack ++ [TimeoutVal.noneVal]).getLast? =
      some .noneVal := by simp
  simp only [hl] at h2
  exact (timeout_set_n_ok h2).1

/-- Popping a stack whose top is an exactly-representable timeout value
restores the original raw unit count. -/
theorem pop_restores_val {s s1 s2 : ScaffoldBus} {c0 : Nat}
    (hu : 0 < s.timeout_unit) (h0 : c0 ≠ 0)
    (hunit1 : s1.timeout_unit = s.timeout_unit)
    (hstack1 : s1.timeout_stack =
      s.timeout_stack ++ [.val ((c0 : ℚ) * s.timeout_unit)])
    (h2 : pop_timeout s1 = .ok s2) :
    s2.cache_timeout = some c0 ∧ s2.timeout_unit = s.timeout_unit := by
  unfold pop_timeout at h2
  rw [hstack1] at h2
  have hl : (s.timeout_stack ++ [TimeoutVal.val ((c0 : ℚ) * s.timeout_unit)]).getLast? =
      some (.val ((c0 : ℚ) * s.timeout_unit)) := by simp
  simp only [hl] at h2
  obtain ⟨hcache2, hunit2, -⟩ := timeout_set_n_ok h2
  have hX : ({ s1 with timeout_stack := (s.timeout_stack ++ [TimeoutVal.val ((c0 : ℚ) * s.timeout_unit)]).dropLast } : ScaffoldBus).timeout_unit = s.timeout_unit := hunit1
  rw [hX] at hcache2
  rw [pyInt_units_roundtrip hu h0] at hcache2
  constructor
  · exact hcache2
  · rw [hunit2]
    exact hunit1

/-- Idealized restoration property: on a bus whose timeout has been
configured, `push_timeout x` followed by `pop_timeout` restores the
`timeout` property for every requested value `x` — under the exact rational
arithmetic of this idealized model.  The source evaluates the same
expressions with IEEE-754 doubles, whose rounding breaks this property;
see the binary64 model and `C6_float_roundtrip_bug` below. -/
theorem push_pop_timeout_exact (s : ScaffoldBus) (x : Option ℚ) (c0 : Nat)
    (s1 s2 : ScaffoldBus) (hc : s.cache_timeout = some c0)
    (hu : 0 < s.timeout_unit)
    (h1 : push_timeout s x = .ok s1) (h2 : pop_timeout s1 = .ok s2) :
    timeout_getter s2 = timeout_getter s := by
  by_cases h0 : c0 = 0
  · subst h0
    have hg : timeout_getter s = .ok .noneVal := by
      unfold timeout_getter
      rw [hc]
      rfl
    obtain ⟨hunit1, hstack1⟩ := push_timeout_ok hg h1
    have hc2 := pop_restores_none hstack1 h2
    unfold timeout_getter
    rw [hc2, hc]
    rfl
  · have hg : timeout_getter s = .ok (.val ((c0 : ℚ) * s.timeout_unit)) := by
      unfold timeout_getter
      rw [hc]
      simp [h0]
    obtain ⟨hunit1, hstack1⟩ := push_timeout_ok hg h1
    obtain ⟨hc2, hu2⟩ := pop_restores_val hu h0 hunit1 hstack1 h2
    unfold timeout_getter
    rw [hc2, hc]
    simp [h0, hu2]

/-- A fresh bus whose timeout has been configured to 0 raw units (timeout
disabled). -/
def tBus : ScaffoldBus := { freshBus with cache_timeout := some 0 }

/-- The bus of `tBus` after `push_timeout None`. -/
def tBus1 : ScaffoldBus :=
  { freshBus with cache_timeout := some 0, timeout_stack := [.noneVal] }

theorem push_pop_timeout_exact_check :
    push_timeout tBus none = .ok tBus1 ∧ pop_timeout tBus1 = .ok tBus ∧
    timeout_getter tBus = timeout_getter tBus :=
  ⟨by decide, by decide,
   push_pop_timeout_exact tBus none 0 tBus1 tBus (by decide) (by decide)
     (by decide) (by decide)⟩

/-- A finite nonnegative IEEE-754 binary64 value, as an integer mantissa
and a power-of-two exponent (`m * 2^e`).  All values reached by the timeout
arithmetic below are positive normal doubles, so neither signs, subnormals,
infinities nor overflow need representing. -/
structure F64 where
  m : Nat
  e : Int
deriving DecidableEq

/-- Bit length of a natural number (fuel-structural; the fuel bounds the
bit length itself, and 256 covers every intermediate value below). -/
def bitLenFuel : Nat → Nat → Nat
  | 0, _ => 0
  | _ + 1, 0 => 0
  | fuel + 1, n + 1 => bitLenFuel fuel ((n + 1) / 2) + 1

/-- Bit length of a natural number. -/
def bitLen (n : Nat) : Nat := bitLenFuel 256 n

/-- Round `m * 2^e` to 53 significant bits, to nearest with ties to even,
`sticky` being nonzero exactly when the true value exceeds `m * 2^e` by a
positive amount below one unit in the last place of `m`. -/
def roundMant (m : Nat) (e : Int) (sticky : Nat) : F64 :=
  if bitLen m ≤ 53 then ⟨m, e⟩
  else
    ⟨if (if 2 ^ (bitLen m - 53 - 1) < m % 2 ^ (bitLen m - 53) then true
        else if m % 2 ^ (bitLen m - 53) < 2 ^ (bitLen m - 53 - 1) then false
        else if sticky ≠ 0 then true
        else m / 2 ^ (bitLen m - 53) % 2 = 1) then
      m / 2 ^ (bitLen m - 53) + 1
    else m / 2 ^ (bitLen m - 53), e + (bitLen m - 53)⟩

/-- Correctly rounded binary64 multiplication (nonnegative operands). -/
def fmul (a b : F64) : F64 := roundMant (a.m * b.m) (a.e + b.e) 0

/-- Correctly rounded binary64 division (nonnegative dividend, positive
divisor): the quotient is computed to at least 54 bits and the remainder
feeds the sticky bit. -/
def fdiv (a b : F64) : F64 :=
  roundMant (a.m * 2 ^ (bitLen b.m + 54) / b.m)
    (a.e - b.e - (bitLen b.m + 54))
    (a.m * 2 ^ (bitLen b.m + 54) % b.m)

/-- Python `int()` truncation of a nonnegative double. -/
def ftruncToInt (x : F64) : Int :=
  if 0 ≤ x.e then (x.m : Int) * 2 ^ x.e.toNat
  else ((x.m / 2 ^ (-x.e).toNat : Nat) : Int)

/-- Comparison of binary64 values. -/
def fle (a b : F64) : Bool :=
  if a.e ≤ b.e then a.m ≤ b.m * 2 ^ (b.e - a.e).toNat
  else a.m * 2 ^ (a.e - b.e).toNat ≤ b.m

/-- Equality of binary64 values (representation independent). -/
def feq (a b : F64) : Bool :=
  if a.e ≤ b.e then a.m = b.m * 2 ^ (b.e - a.e).toNat
  else a.m * 2 ^ (a.e - b.e).toNat = b.m

/-- Python `min(a, b)` on doubles (returns `a` on ties). -/
def fmin (a b : F64) : F64 := if fle a b then a else b

/-- Values of the `timeout` property under binary64 arithmetic. -/
inductive TVal64 where
  | errInstance (msg : String)
  | noneVal
  | val (x : F64)
deriving DecidableEq

/-- The timeout subsystem of a `ScaffoldBus` with the source's IEEE-754
double arithmetic made explicit.  `sent_ops` records the raw unit counts of
the `TimeoutOperation`s handed to `operation` — by `operation_sameCfg` a
submitted operation never touches the timeout fields, and on a fresh
connected bus it simply appends one datagram (`operation_send_eq`), so the
FIFO side of the bus is independent of this arithmetic. -/
structure TimeoutCtl where
  cache_timeout : Option Int
  timeout_stack : List TVal64
  timeout_unit : F64
  sent_ops : List Int
deriving DecidableEq

/-- The `timeout` property getter under binary64 arithmetic: the cached
raw count (a Python int, exact in binary64 for these magnitudes) times the
timeout unit. -/
def timeout_getter64 (s : TimeoutCtl) : Except PyErr TVal64 :=
  match s.cache_timeout with
  | none => .ok (.errInstance "Timeout not set yet")
  | some n =>
    if n = 0 then .ok .noneVal
    else .ok (.val (fmul ⟨n.toNat, 0⟩ s.timeout_unit))

/-- Tail of the `timeout` setter under binary64 arithmetic: skip when the
count is unchanged, else check the `TimeoutOperation` range and send. -/
def timeout_set_n64 (s : TimeoutCtl) (n : Int) : Except PyErr TimeoutCtl :=
  if some n = s.cache_timeout then .ok s
  else
    if 0 ≤ n ∧ n < 0x100000000 then
      .ok { s with sent_ops := s.sent_ops ++ [n], cache_timeout := some n }
    else .error (.valueError "Timeout value out of range")

/-- The `timeout` setter under binary64 arithmetic:
`max(1, int(value / timeout_unit))` on doubles. -/
def timeout_setter64 (s : TimeoutCtl) (value : TVal64) :
    Except PyErr TimeoutCtl :=
  match value with
  | .errInstance _ => .error .typeError
  | .noneVal => timeout_set_n64 s 0
  | .val q => timeout_set_n64 s (max 1 (ftruncToInt (fdiv q s.timeout_unit)))

/-- The value pushed by `push_timeout` under binary64 arithmetic. -/
def pushNewValue64 (current : TVal64) (value : Option F64) :
    Except PyErr TVal64 :=
  match value with
  | none => .ok current
  | some q =>
    match current with
    | .noneVal => .ok (.val q)
    | .val t => .ok (.val (fmin t q))
    | .errInstance _ => .error .typeError

/-- `push_timeout` under binary64 arithmetic. -/
def push_timeout64 (s : TimeoutCtl) (value : Option F64) :
    Except PyErr TimeoutCtl :=
  match timeout_getter64 s with
  | .error e => .error e
  | .ok current =>
    match pushNewValue64 current value with
    | .error e => .error e
    | .ok v =>
      timeout_setter64 { s with timeout_stack := s.timeout_stack ++ [current] } v

/-- `pop_timeout` under binary64 arithmetic. -/
def pop_timeout64 (s : TimeoutCtl) : Except PyErr TimeoutCtl :=
  match s.timeout_stack.getLast? with
  | none => .error (.runtimeError "Timeout setting stack is empty")
  | some v =>
    timeout_setter64 { s with timeout_stack := s.timeout_stack.dropLast } v

/-- The timeout unit of the Scaffold board: `3.0 / 100e6` in doubles
(`sys_freq` is 100 MHz). -/
def unit64 : F64 := fdiv ⟨3, 0⟩ ⟨100000000, 0⟩

/-- The `timeout` property value for 511 cached raw units: `511 * unit` in
doubles. -/
def tSec511 : F64 := fmul ⟨511, 0⟩ unit64

/-- The timeout subsystem with 511 raw units configured (reachable by
assigning `511.5 * unit` to the `timeout` property). -/
def ctl0 : TimeoutCtl :=
  { cache_timeout := some 511, timeout_stack := [], timeout_unit := unit64,
    sent_ops := [] }

/-- The subsystem of `ctl0` after `push_timeout(1.0)`: the clamped value is
the current timeout itself, yet its reassignment already truncates the
cache to 510. -/
def ctl1 : TimeoutCtl :=
  { cache_timeout := some 510, timeout_stack := [.val tSec511],
    timeout_unit := unit64, sent_ops := [510] }

/-- The subsystem of `ctl1` after `pop_timeout`: the popped property value
reassigns count 510, not the original 511. -/
def ctl2 : TimeoutCtl :=
  { cache_timeout := some 510, timeout_stack := [], timeout_unit := unit64,
    sent_ops := [510] }

/-- C6 evaluated at the failing input: on the Scaffold board
(`timeout_unit = 3.0/100e6` in doubles), a timeout of 511 raw units is
reachable through the setter (first conjunct, via `timeout = 511.5*unit`),
yet `int((511*unit)/unit)` truncates to 510, so `push_timeout(1.0)`
followed by `pop_timeout` leaves the cache at 510 and a `timeout` property
different from `t0` — against the claim and `push_timeout`'s own
documentation that `pop_timeout` restores the previous value. -/
theorem C6_float_roundtrip_bug :
    max 1 (ftruncToInt (fdiv (fmul ⟨1023, -1⟩ unit64) unit64)) = 511 ∧
    timeout_getter64 ctl0 = .ok (.val tSec511) ∧
    push_timeout64 ctl0 (some ⟨1, 0⟩) = .ok ctl1 ∧
    pop_timeout64 ctl1 = .ok ctl2 ∧
    ctl2.cache_timeout = some 510 ∧
    timeout_getter64 ctl2 = .ok (.val (fmul ⟨510, 0⟩ unit64)) ∧
    feq (fmul ⟨510, 0⟩ unit64) tSec511 = false := by
  decide

end Scaffold
